import Mathlib

set_option maxRecDepth 16000
set_option maxHeartbeats 1600000

/-!
Shallow embedding of the educational EVM interpreter from src/machine.rs
(crate evm_in_rust). 256-bit words are modelled as Nat with explicit
wrapping modulo 2^256; the i128 gas counter is modelled as an unbounded Int
(the source never approaches the i128 boundary on defined behaviour);
usize conversions clamp to the low 64 bits exactly as u256_to_usize does.
The keccak-256 function comes from the external tiny_keccak crate, so the
whole development is parameterised over an arbitrary hash function
keccak : List Nat -> Nat (interpreted as the 256-bit digest of a byte
string); no claim depends on its values. HashMap / HashSet are modelled as
association lists with first-match lookup and insert-or-replace update;
only membership and per-key content are ever observed. Rust's run/step
recursion is modelled with explicit fuel; a result of none means the fuel
ran out (or the source would panic, e.g. indexing code[pc] out of bounds),
and no claim is made about that case.
-/

/-- Errors of the interpreter, mirroring enum EvmError in machine.rs. -/
inductive EvmError where
  | OutOfGas
  | StackUnderflow
  | StackOverflow
  | InvalidJump (dest : Nat)
  | InvalidOpcode (op : Nat) (pc : Nat)
  | MemoryAccess
  | StaticViolation
deriving DecidableEq

/-- Halt kinds, mirroring enum Halt. -/
inductive Halt where
  | Stop
  | Return
  | Revert
deriving DecidableEq

/-- A log entry: topics and data, mirroring struct LogEntry. -/
structure LogEntry where
  topics : List Nat
  data : List Nat
deriving DecidableEq

/-- Block environment, mirroring struct BlockEnv. -/
structure BlockEnv where
  coinbase : Nat
  timestamp : Nat
  number : Nat
  gas_limit : Nat
  chain_id : Nat
  basefee : Nat
deriving DecidableEq

/-- An account record, mirroring struct Account. -/
structure Account where
  nonce : Nat
  balance : Nat
  code : List Nat
  storage : List (Nat × Nat)
deriving DecidableEq

/-- Account::default(). -/
def Account.default : Account := ⟨0, 0, [], []⟩

/-- World state: address to account map, mirroring struct World. -/
structure World where
  accounts : List (Nat × Account)
deriving DecidableEq

/-- Association-list lookup (first match), modelling HashMap::get. -/
def alistLookup {β : Type} (l : List (Nat × β)) (k : Nat) : Option β :=
  match l with
  | [] => none
  | (k1, v1) :: t => if k1 = k then some v1 else alistLookup t k

/-- Association-list insert-or-replace, modelling HashMap::insert. -/
def alistInsert {β : Type} (l : List (Nat × β)) (k : Nat) (v : β) : List (Nat × β) :=
  match l with
  | [] => [(k, v)]
  | (k1, v1) :: t => if k1 = k then (k, v) :: t else (k1, v1) :: alistInsert t k v

/-- Read an account, defaulting when absent (HashMap get + unwrap_or_default). -/
def World.getAcc (w : World) (a : Nat) : Account :=
  (alistLookup w.accounts a).getD Account.default

/-- accounts.entry(a).or_default(): materialise a default entry when absent. -/
def World.touch (w : World) (a : Nat) : World :=
  match alistLookup w.accounts a with
  | some _ => w
  | none => ⟨alistInsert w.accounts a Account.default⟩

/-- Replace (or add) the account stored at address a. -/
def World.setAcc (w : World) (a : Nat) (acc : Account) : World :=
  ⟨alistInsert w.accounts a acc⟩

/-- Configuration passed to Evm::new, mirroring struct EvmConfig. -/
structure EvmConfig where
  gas_limit : Int
  calldata : List Nat
  address : Option Nat
  caller : Option Nat
  origin : Option Nat
  value : Nat
  gas_price : Nat
  block : BlockEnv
  world : Option World
deriving DecidableEq

/-- Full interpreter state, mirroring struct Evm. The stack is stored
top-first (Rust keeps the top at the back of its Vec). -/
structure Evm where
  pc : Nat
  gas : Int
  code : List Nat
  stack : List Nat
  memory : List Nat
  storage : List (Nat × Nat)
  calldata : List Nat
  return_data : List Nat
  last_return_data : List Nat
  halted : Option Halt
  logs : List LogEntry
  is_static : Bool
  refund : Int
  address : Option Nat
  caller : Option Nat
  origin : Option Nat
  callvalue : Nat
  gas_price : Nat
  block : BlockEnv
  world : Option World
  jumpdests : List Nat
deriving DecidableEq

/-- Number of push-immediate bytes consumed by an opcode (0 outside PUSH1..PUSH32). -/
def pushLen (op : Nat) : Nat := if 0x60 ≤ op ∧ op ≤ 0x7F then op - 0x60 + 1 else 0

/-- Fuel-indexed JUMPDEST scanner loop, mirroring the while loop of
scan_jumpdests: record 0x5B offsets, skip (op - PUSH1 + 1) bytes after a
PUSHn, one byte otherwise. -/
def scanGo (code : List Nat) : Nat → Nat → List Nat
  | 0, _ => []
  | fuel + 1, pc =>
    if pc < code.length then
      let op := code.getD pc 0
      if op = 0x5B then pc :: scanGo code fuel (pc + 1)
      else if 0x60 ≤ op ∧ op ≤ 0x7F then scanGo code fuel (pc + 1 + (op - 0x60 + 1))
      else scanGo code fuel (pc + 1)
    else []

/-- scan_jumpdests from machine.rs: the pc strictly increases each
iteration, so code.length iterations always suffice. -/
def scan_jumpdests (code : List Nat) : List Nat := scanGo code code.length 0

/-- The list of instruction-start offsets obtained by the same linear
decode (used to state claim C8 in the specification's vocabulary). -/
def instrStartsGo (code : List Nat) : Nat → Nat → List Nat
  | 0, _ => []
  | fuel + 1, pc =>
    if pc < code.length then
      pc :: instrStartsGo code fuel (pc + 1 + pushLen (code.getD pc 0))
    else []

/-- All instruction-start offsets of a bytecode. -/
def instrStarts (code : List Nat) : List Nat := instrStartsGo code code.length 0

/-- Specification predicate: offset p lies inside the immediate bytes of
some PUSHn instruction. -/
def inPushImmediate (code : List Nat) (p : Nat) : Prop :=
  ∃ q ∈ instrStarts code, q < p ∧ p ≤ q + pushLen (code.getD q 0)

instance (code : List Nat) (p : Nat) : Decidable (inPushImmediate code p) := by
  unfold inPushImmediate; infer_instance

/-- Evm::new: precompute jumpdests and initialise the frame. -/
def Evm.new (code : List Nat) (cfg : EvmConfig) : Evm where
  pc := 0
  gas := cfg.gas_limit
  code := code
  stack := []
  memory := []
  storage := []
  calldata := cfg.calldata
  return_data := []
  last_return_data := []
  halted := none
  logs := []
  is_static := false
  refund := 0
  address := cfg.address
  caller := cfg.caller
  origin := cfg.origin
  callvalue := cfg.value
  gas_price := cfg.gas_price
  block := cfg.block
  world := cfg.world
  jumpdests := scan_jumpdests code

/-- U256 wrapping addition. -/
def addWrap (a b : Nat) : Nat := (a + b) % 2 ^ 256

/-- U256 wrapping subtraction (a - b mod 2^256 for in-range inputs). -/
def subWrap (a b : Nat) : Nat := (a % 2 ^ 256 + 2 ^ 256 - b % 2 ^ 256) % 2 ^ 256

/-- U256 wrapping multiplication. -/
def mulWrap (a b : Nat) : Nat := a * b % 2 ^ 256

/-- U256 division: zero divisor yields zero. -/
def divU (a b : Nat) : Nat := if b = 0 then 0 else a / b

/-- U256 bitwise NOT. -/
def notU (a : Nat) : Nat := 2 ^ 256 - 1 - a % 2 ^ 256

/-- Booleans pushed as 0/1 words. -/
def boolToWord (b : Bool) : Nat := if b then 1 else 0

/-- u256_to_usize: clamp to the low 64 bits (64-bit platform). -/
def u256_to_usize (v : Nat) : Nat := v % 2 ^ 64

/-- u256_to_h160: keep the low 20 bytes of the big-endian serialisation. -/
def u256_to_h160 (v : Nat) : Nat := v % 2 ^ 160

/-- h160_to_u256: a 160-bit address as a word with zero high bits. -/
def h160_to_u256 (a : Nat) : Nat := a % 2 ^ 160

/-- Big-endian byte-list to number (U256::from_big_endian). -/
def bytesToNat (bs : List Nat) : Nat := bs.foldl (fun acc b => acc * 256 + b % 256) 0

/-- 32-byte big-endian serialisation of a word (U256::to_big_endian). -/
def wordBytes (v : Nat) : List Nat :=
  (List.range 32).map (fun i => v / 2 ^ (8 * (31 - i)) % 256)

/-- 20-byte big-endian serialisation of an address. -/
def h160Bytes (a : Nat) : List Nat :=
  (List.range 20).map (fun i => a / 2 ^ (8 * (19 - i)) % 256)

/-- Minimal big-endian byte string of a u64 (the loop in rlp_u64). -/
def natBytesBE (n : Nat) : List Nat :=
  if h : n = 0 then [] else natBytesBE (n / 256) ++ [n % 256]
decreasing_by exact Nat.div_lt_self (Nat.pos_of_ne_zero h) (by omega)

/-- rlp_bytes from machine.rs (short-string RLP, length byte wraps as u8). -/
def rlp_bytes (b : List Nat) : List Nat :=
  if b.length = 1 ∧ b.getD 0 0 < 0x80 then b
  else ((0x80 + b.length) % 256) :: b

/-- rlp_u64 from machine.rs. -/
def rlp_u64 (n : Nat) : List Nat :=
  if n = 0 then [0x80] else rlp_bytes (natBytesBE n)

/-- create_address: keccak256(rlp([sender, nonce]))[12..]. -/
def create_address (keccak : List Nat → Nat) (from_ : Nat) (nonce : Nat) : Nat :=
  let enc_from := rlp_bytes (h160Bytes from_)
  let enc_nonce := rlp_u64 nonce
  let list_len := enc_from.length + enc_nonce.length
  let rlp := ((0xC0 + list_len) % 256) :: (enc_from ++ enc_nonce)
  keccak rlp % 2 ^ 160

/-- create2_address: keccak256(0xff || sender || salt || keccak256(init))[12..]. -/
def create2_address (keccak : List Nat → Nat) (from_ : Nat) (salt : Nat)
    (init : List Nat) : Nat :=
  let ih := wordBytes (keccak init % 2 ^ 256)
  keccak (0xff :: (h160Bytes from_ ++ wordBytes (salt % 2 ^ 256) ++ ih)) % 2 ^ 160

/-- precompile from machine.rs: identity at address 4, nothing else. -/
def precompile (addr : Nat) (input : List Nat) : Option (List Nat) :=
  if addr = 4 then some input else none

/-- ceil(size/32): fn words. -/
def words (size : Nat) : Nat := (size + 31) / 32

/-- Memory cost function: fn mem_cost, C(w) = 3w + w^2/512. -/
def mem_cost (w : Nat) : Nat := 3 * w + w * w / 512

/-- fn call_gas: base cost, 63/64 forwarding cap. Returns (forward, base). -/
def call_gas (available : Int) (requested : Nat) (has_value : Bool) : Nat × Nat :=
  let base : Nat := 700 + if has_value then 9000 else 0
  let avail_after_base : Nat :=
    if (base : Int) < available then available.toNat - base else 0
  let cap := avail_after_base - avail_after_base / 64
  (min requested cap, base)

/-- Grow memory with zero bytes up to size (Vec::resize in ensure_memory). -/
def ensureMem (m : List Nat) (size : Nat) : List Nat :=
  if m.length < size then m ++ List.replicate (size - m.length) 0 else m

/-- memory[o..o+n] after the region has been materialised. -/
def memSlice (m : List Nat) (o n : Nat) : List Nat := (m.drop o).take n

/-- The copy loops: memory[mOff+i] = src[sOff+i] (0 past the end of src). -/
def memCopyFrom (m : List Nat) (mOff : Nat) (src : List Nat) (sOff n : Nat) : List Nat :=
  (List.range n).foldl (fun acc i => acc.set (mOff + i) (src.getD (sOff + i) 0)) m

/-- Evm::gas_dec: subtract max(amount,0), fail if the counter went negative. -/
def Evm.gas_dec (s : Evm) (amount : Int) : Evm × Option EvmError :=
  let g := s.gas - max amount 0
  ({ s with gas := g }, if g < 0 then some .OutOfGas else none)

/-- Evm::charge_memory: deduct mem_cost(after) - mem_cost(before) when the
word count grows. -/
def Evm.charge_memory (s : Evm) (size : Nat) : Evm × Option EvmError :=
  let before := words s.memory.length
  let after := words size
  if before < after then s.gas_dec ((mem_cost after - mem_cost before : Nat) : Int)
  else (s, none)

/-- Evm::ensure_memory. -/
def Evm.ensure_memory (s : Evm) (size : Nat) : Evm :=
  { s with memory := ensureMem s.memory size }

/-- Evm::push: fail with no state change at depth 1024. -/
def Evm.push (s : Evm) (v : Nat) : Option Evm :=
  if 1024 ≤ s.stack.length then none else some { s with stack := v :: s.stack }

/-- Evm::pop: fail with no state change on an empty stack. -/
def Evm.pop (s : Evm) : Option (Nat × Evm) :=
  match s.stack with
  | [] => none
  | v :: t => some (v, { s with stack := t })

/-- A run of k sequential pop() calls: on underflow the earlier pops have
already emptied the stack when the failing pop raises. -/
def Evm.popk (s : Evm) (k : Nat) : Option (List Nat) × Evm :=
  if k ≤ s.stack.length then (some (s.stack.take k), { s with stack := s.stack.drop k })
  else (none, { s with stack := [] })

/-- Evm::binop: pop b (top) then a with missing operands read as zero,
push f(a,b); no underflow, no overflow check. -/
def Evm.binop (s : Evm) (f : Nat → Nat → Nat) : Evm :=
  { s with stack := f (s.stack.tail.headD 0) (s.stack.headD 0) :: s.stack.tail.tail }

/-- Evm::unop: pop a (zero when absent), push f(a). -/
def Evm.unop (s : Evm) (f : Nat → Nat) : Evm :=
  { s with stack := f (s.stack.headD 0) :: s.stack.tail }

/-- Evm::sload: the account's storage when world, address and the account
are all present, the frame-local map otherwise. -/
def Evm.sload (s : Evm) (key : Nat) : Nat :=
  match s.world, s.address with
  | some w, some addr =>
    match alistLookup w.accounts addr with
    | some acc => (alistLookup acc.storage key).getD 0
    | none => (alistLookup s.storage key).getD 0
  | _, _ => (alistLookup s.storage key).getD 0

/-- Evm::sstore: write into the account's storage when world and address
are present, into the frame-local map otherwise. -/
def Evm.sstore (s : Evm) (key val : Nat) : Evm :=
  match s.world, s.address with
  | some w, some addr =>
    let acc := (w.touch addr).getAcc addr
    { s with world := some ((w.touch addr).setAcc addr { acc with storage := alistInsert acc.storage key val }) }
  | _, _ => { s with storage := alistInsert s.storage key val }

/-- Common instruction tail: charge gas, then advance pc by one. -/
def finishStep (s : Evm) (cost : Int) : Option (Evm × Option EvmError) :=
  match s.gas_dec cost with
  | (s1, some e) => some (s1, some e)
  | (s1, none) => some ({ s1 with pc := s1.pc + 1 }, none)

/-- Common tail of the pure-push instructions: push, charge, advance. -/
def pushFin (s : Evm) (v : Nat) (cost : Int) : Option (Evm × Option EvmError) :=
  match s.push v with
  | none => some (s, some .StackOverflow)
  | some s1 => finishStep s1 cost

/-- Charge gas without touching pc (tail of JUMP/JUMPI). -/
def gasOnly (s : Evm) (cost : Int) : Option (Evm × Option EvmError) :=
  match s.gas_dec cost with
  | (s1, some e) => some (s1, some e)
  | (s1, none) => some (s1, none)

/-- Charge gas, then set pc to an explicit value (tail of PUSHn). -/
def gasThenPc (s : Evm) (cost : Int) (newPc : Nat) : Option (Evm × Option EvmError) :=
  match s.gas_dec cost with
  | (s1, some e) => some (s1, some e)
  | (s1, none) => some ({ s1 with pc := newPc }, none)

/-- Arithmetic / comparison / bitwise binary instruction arm. -/
def arithArm (s : Evm) (f : Nat → Nat → Nat) (cost : Int) : Option (Evm × Option EvmError) :=
  finishStep (s.binop f) cost

/-- Unary instruction arm. -/
def unArm (s : Evm) (f : Nat → Nat) (cost : Int) : Option (Evm × Option EvmError) :=
  finishStep (s.unop f) cost

/-- The STOP arm. -/
def stepStop (s : Evm) : Option (Evm × Option EvmError) :=
  match s.gas_dec 0 with
  | (s1, some e) => some (s1, some e)
  | (s1, none) => some ({ s1 with halted := some Halt.Stop, pc := s1.code.length }, none)

/-- The SHA3 arm. -/
def stepSha3 (keccak : List Nat → Nat) (s : Evm) : Option (Evm × Option EvmError) :=
  match s.popk 2 with
  | (none, s1) => some (s1, some .StackUnderflow)
  | (some vs, s1) =>
    let o := u256_to_usize (vs.getD 0 0)
    let sz := u256_to_usize (vs.getD 1 0)
    let s2 := s1.ensure_memory (o + sz)
    pushFin s2 (keccak (memSlice s2.memory o sz) % 2 ^ 256) ((30 + (sz + 31) / 32 : Nat) : Int)

/-- The BALANCE arm. -/
def stepBalance (s : Evm) : Option (Evm × Option EvmError) :=
  match s.pop with
  | none => some (s, some .StackUnderflow)
  | some (addr, s1) =>
    let h := u256_to_h160 addr
    pushFin s1 (((s1.world.bind (fun w => alistLookup w.accounts h)).map Account.balance).getD 0) 100

/-- The EXTCODESIZE arm. -/
def stepExtcodesize (s : Evm) : Option (Evm × Option EvmError) :=
  match s.pop with
  | none => some (s, some .StackUnderflow)
  | some (addr, s1) =>
    let h := u256_to_h160 addr
    pushFin s1 (((s1.world.bind (fun w => alistLookup w.accounts h)).map (fun a => a.code.length)).getD 0) 100

/-- The EXTCODEHASH arm. -/
def stepExtcodehash (keccak : List Nat → Nat) (s : Evm) : Option (Evm × Option EvmError) :=
  match s.pop with
  | none => some (s, some .StackUnderflow)
  | some (addr, s1) =>
    let h := u256_to_h160 addr
    let codeL := ((s1.world.bind (fun w => alistLookup w.accounts h)).map Account.code).getD []
    pushFin s1 (keccak codeL % 2 ^ 256) 400

/-- The EXTCODECOPY arm. -/
def stepExtcodecopy (s : Evm) : Option (Evm × Option EvmError) :=
  match s.popk 4 with
  | (none, s1) => some (s1, some .StackUnderflow)
  | (some vs, s1) =>
    let h := u256_to_h160 (vs.getD 0 0)
    let m := u256_to_usize (vs.getD 1 0)
    let c := u256_to_usize (vs.getD 2 0)
    let sz := u256_to_usize (vs.getD 3 0)
    let codeL := ((s1.world.bind (fun w => alistLookup w.accounts h)).map Account.code).getD []
    match s1.charge_memory (m + sz) with
    | (s2, some e) => some (s2, some e)
    | (s2, none) =>
      let s3 := s2.ensure_memory (m + sz)
      finishStep { s3 with memory := memCopyFrom s3.memory m codeL c sz } ((100 + (sz + 31) / 32 : Nat) : Int)

/-- The RETURNDATACOPY arm. -/
def stepReturndatacopy (s : Evm) : Option (Evm × Option EvmError) :=
  match s.popk 3 with
  | (none, s1) => some (s1, some .StackUnderflow)
  | (some vs, s1) =>
    let m := u256_to_usize (vs.getD 0 0)
    let d := u256_to_usize (vs.getD 1 0)
    let sz := u256_to_usize (vs.getD 2 0)
    match s1.charge_memory (m + sz) with
    | (s2, some e) => some (s2, some e)
    | (s2, none) =>
      let s3 := s2.ensure_memory (m + sz)
      finishStep { s3 with memory := memCopyFrom s3.memory m s3.last_return_data d sz } ((3 + (sz + 31) / 32 : Nat) : Int)

/-- The CALLDATACOPY arm. -/
def stepCalldatacopy (s : Evm) : Option (Evm × Option EvmError) :=
  match s.popk 3 with
  | (none, s1) => some (s1, some .StackUnderflow)
  | (some vs, s1) =>
    let m := u256_to_usize (vs.getD 0 0)
    let d := u256_to_usize (vs.getD 1 0)
    let sz := u256_to_usize (vs.getD 2 0)
    match s1.charge_memory (m + sz) with
    | (s2, some e) => some (s2, some e)
    | (s2, none) =>
      let s3 := s2.ensure_memory (m + sz)
      finishStep { s3 with memory := memCopyFrom s3.memory m s3.calldata d sz } ((3 + (sz + 31) / 32 : Nat) : Int)

/-- The CODECOPY arm. -/
def stepCodecopy (s : Evm) : Option (Evm × Option EvmError) :=
  match s.popk 3 with
  | (none, s1) => some (s1, some .StackUnderflow)
  | (some vs, s1) =>
    let m := u256_to_usize (vs.getD 0 0)
    let c := u256_to_usize (vs.getD 1 0)
    let sz := u256_to_usize (vs.getD 2 0)
    match s1.charge_memory (m + sz) with
    | (s2, some e) => some (s2, some e)
    | (s2, none) =>
      let s3 := s2.ensure_memory (m + sz)
      finishStep { s3 with memory := memCopyFrom s3.memory m s3.code c sz } ((3 + (sz + 31) / 32 : Nat) : Int)

/-- The MLOAD arm: expand, read 32 bytes big-endian, push; flat cost 3. -/
def stepMload (s : Evm) : Option (Evm × Option EvmError) :=
  match s.pop with
  | none => some (s, some .StackUnderflow)
  | some (offset, s1) =>
    let o := u256_to_usize offset
    let s2 := s1.ensure_memory (o + 32)
    pushFin s2 (bytesToNat (memSlice s2.memory o 32)) 3

/-- The MSTORE arm: expand, write the word big-endian; flat cost 3. -/
def stepMstore (s : Evm) : Option (Evm × Option EvmError) :=
  match s.popk 2 with
  | (none, s1) => some (s1, some .StackUnderflow)
  | (some vs, s1) =>
    let o := u256_to_usize (vs.getD 0 0)
    let val := vs.getD 1 0
    let s2 := s1.ensure_memory (o + 32)
    finishStep { s2 with memory := memCopyFrom s2.memory o (wordBytes val) 0 32 } 3

/-- The MSTORE8 arm: expand, write the low byte; flat cost 3. -/
def stepMstore8 (s : Evm) : Option (Evm × Option EvmError) :=
  match s.popk 2 with
  | (none, s1) => some (s1, some .StackUnderflow)
  | (some vs, s1) =>
    let o := u256_to_usize (vs.getD 0 0)
    let val := vs.getD 1 0
    let s2 := s1.ensure_memory (o + 1)
    finishStep { s2 with memory := s2.memory.set o (val % 256) } 3

/-- The SLOAD arm. -/
def stepSload (s : Evm) : Option (Evm × Option EvmError) :=
  match s.pop with
  | none => some (s, some .StackUnderflow)
  | some (key, s1) => pushFin s1 (s1.sload key) 100

/-- The SSTORE arm: static check, transition-dependent cost, refund on
clearing a non-zero slot, then the write. -/
def stepSstore (s : Evm) : Option (Evm × Option EvmError) :=
  if s.is_static then some (s, some .StaticViolation)
  else match s.popk 2 with
  | (none, s1) => some (s1, some .StackUnderflow)
  | (some vs, s1) =>
    let key := vs.getD 0 0
    let val := vs.getD 1 0
    let current := s1.sload key
    let cost : Int :=
      if current = 0 ∧ val ≠ 0 then 20000
      else if current ≠ 0 ∧ val = 0 then 5000
      else 2900
    match s1.gas_dec cost with
    | (s2, some e) => some (s2, some e)
    | (s2, none) =>
      let s3 := if current ≠ 0 ∧ val = 0 then { s2 with refund := s2.refund + 15000 } else s2
      let s4 := s3.sstore key val
      some ({ s4 with pc := s4.pc + 1 }, none)

/-- The JUMP arm: validate against the jumpdest set, charge 8, set pc. -/
def stepJump (s : Evm) : Option (Evm × Option EvmError) :=
  match s.pop with
  | none => some (s, some .StackUnderflow)
  | some (dest, s1) =>
    let d := u256_to_usize dest
    if d ∈ s1.jumpdests then
      match s1.gas_dec 8 with
      | (s2, some e) => some (s2, some e)
      | (s2, none) => some ({ s2 with pc := d }, none)
    else some (s1, some (.InvalidJump d))

/-- The JUMPI arm: pc is moved before the charge of 10. -/
def stepJumpi (s : Evm) : Option (Evm × Option EvmError) :=
  match s.popk 2 with
  | (none, s1) => some (s1, some .StackUnderflow)
  | (some vs, s1) =>
    let dest := vs.getD 0 0
    let cond := vs.getD 1 0
    if cond ≠ 0 then
      let d := u256_to_usize dest
      if d ∈ s1.jumpdests then gasOnly { s1 with pc := d } 10
      else some (s1, some (.InvalidJump d))
    else gasOnly { s1 with pc := s1.pc + 1 } 10

/-- The CALLDATALOAD arm: 32 bytes from calldata, right-aligned with left
zero padding when the read crosses the end. -/
def stepCalldataload (s : Evm) : Option (Evm × Option EvmError) :=
  match s.pop with
  | none => some (s, some .StackUnderflow)
  | some (offset, s1) =>
    let o := u256_to_usize offset
    let slice := if o < s1.calldata.length then (s1.calldata.drop o).take (min s1.calldata.length (o + 32) - o) else []
    pushFin s1 (bytesToNat (List.replicate (32 - slice.length) 0 ++ slice)) 3

/-- The PUSHn arm: the value is zero when the immediate crosses the end of
code; pc jumps over the immediate bytes. -/
def stepPushN (s : Evm) (op : Nat) : Option (Evm × Option EvmError) :=
  let n := op - 0x60 + 1
  let start := s.pc + 1
  let endI := start + n
  let slice := if endI ≤ s.code.length then (s.code.drop start).take n else []
  match s.push (bytesToNat (List.replicate (32 - slice.length) 0 ++ slice)) with
  | none => some (s, some .StackOverflow)
  | some s1 => gasThenPc s1 3 endI

/-- The DUPk arm. -/
def stepDup (s : Evm) (op : Nat) : Option (Evm × Option EvmError) :=
  let n := op - 0x80 + 1
  if s.stack.length < n then some (s, some .StackUnderflow)
  else pushFin s (s.stack.getD (n - 1) 0) 3

/-- The SWAPk arm. -/
def stepSwap (s : Evm) (op : Nat) : Option (Evm × Option EvmError) :=
  let n := op - 0x90 + 1
  if s.stack.length < n + 1 then some (s, some .StackUnderflow)
  else finishStep { s with stack := (s.stack.set 0 (s.stack.getD n 0)).set n (s.stack.getD 0 0) } 3

/-- The RETURN arm. -/
def stepRet (s : Evm) : Option (Evm × Option EvmError) :=
  match s.popk 2 with
  | (none, s1) => some (s1, some .StackUnderflow)
  | (some vs, s1) =>
    let o := u256_to_usize (vs.getD 0 0)
    let sz := u256_to_usize (vs.getD 1 0)
    let s2 := s1.ensure_memory (o + sz)
    let s3 := { s2 with return_data := memSlice s2.memory o sz, halted := some Halt.Return }
    match s3.gas_dec 0 with
    | (s4, some e) => some (s4, some e)
    | (s4, none) => some ({ s4 with pc := s4.code.length }, none)

/-- The REVERT arm. -/
def stepRevert (s : Evm) : Option (Evm × Option EvmError) :=
  match s.popk 2 with
  | (none, s1) => some (s1, some .StackUnderflow)
  | (some vs, s1) =>
    let o := u256_to_usize (vs.getD 0 0)
    let sz := u256_to_usize (vs.getD 1 0)
    let s2 := s1.ensure_memory (o + sz)
    let s3 := { s2 with return_data := memSlice s2.memory o sz, halted := some Halt.Revert }
    match s3.gas_dec 0 with
    | (s4, some e) => some (s4, some e)
    | (s4, none) => some ({ s4 with pc := s4.code.length }, none)

/-- The LOGn arm. -/
def stepLog (s : Evm) (op : Nat) : Option (Evm × Option EvmError) :=
  if s.is_static then some (s, some .StaticViolation)
  else
    let n := op - 0xA0
    match s.popk 2 with
    | (none, s1) => some (s1, some .StackUnderflow)
    | (some vs, s1) =>
      match s1.popk n with
      | (none, s2) => some (s2, some .StackUnderflow)
      | (some topics, s2) =>
        let o := u256_to_usize (vs.getD 0 0)
        let sz := u256_to_usize (vs.getD 1 0)
        let s3 := s2.ensure_memory (o + sz)
        let s4 := { s3 with logs := s3.logs ++ [⟨topics, memSlice s3.memory o sz⟩] }
        finishStep s4 ((8 + (sz + 31) / 32 : Nat) : Int)

/-- Child frame of CALL, as built at machine.rs:461 (code of the target
account, forwarded gas plus stipend, context switched to the target). -/
def callChild (s : Evm) (w1 : World) (to_h from_addr : Nat) (input : List Nat)
    (forward value : Nat) : Evm :=
  Evm.new (w1.getAcc to_h).code
    { gas_limit := ((forward + if value ≠ 0 then 2300 else 0 : Nat) : Int)
      calldata := input
      address := some to_h
      caller := some from_addr
      origin := s.origin
      value := value
      gas_price := s.gas_price
      block := s.block
      world := some w1 }

/-- Child frame of CALLCODE (machine.rs:550): target's code, own address. -/
def callcodeChild (s : Evm) (w1 : World) (to_h self_addr : Nat) (input : List Nat)
    (forward value : Nat) : Evm :=
  Evm.new (((alistLookup w1.accounts to_h).map Account.code).getD [])
    { gas_limit := ((forward + if value ≠ 0 then 2300 else 0 : Nat) : Int)
      calldata := input
      address := some self_addr
      caller := some self_addr
      origin := s.origin
      value := value
      gas_price := s.gas_price
      block := s.block
      world := some w1 }

/-- Child frame of DELEGATECALL (machine.rs:592): address, caller and
call value inherited; forwarded gas with no stipend. -/
def delegatecallChild (s : Evm) (w1 : World) (to_h : Nat) (input : List Nat)
    (forward : Nat) : Evm :=
  Evm.new (((alistLookup w1.accounts to_h).map Account.code).getD [])
    { gas_limit := (forward : Int)
      calldata := input
      address := s.address
      caller := s.caller
      origin := s.origin
      value := s.callvalue
      gas_price := s.gas_price
      block := s.block
      world := some w1 }

/-- Child frame of STATICCALL (machine.rs:506): the child receives the
parent's entire remaining gas and has its static flag forced. -/
def staticcallChild (s : Evm) (w : World) (to_h from_addr : Nat) (input : List Nat) : Evm :=
  let c := Evm.new (((alistLookup w.accounts to_h).map Account.code).getD [])
    { gas_limit := s.gas
      calldata := input
      address := some to_h
      caller := some from_addr
      origin := s.origin
      value := 0
      gas_price := s.gas_price
      block := s.block
      world := some w }
  { c with is_static := true }

/-- Child frame of CREATE / CREATE2 (machine.rs:632, 674): init code as
the program, the parent's entire remaining gas, empty calldata. -/
def createChild (s : Evm) (w1 : World) (init : List Nat) (created from_ : Nat)
    (value : Nat) : Evm :=
  Evm.new init
    { gas_limit := s.gas
      calldata := []
      address := some created
      caller := some from_
      origin := s.origin
      value := value
      gas_price := s.gas_price
      block := s.block
      world := some w1 }

/-- Shared tail of the call-family arms: write the returned bytes into
memory at out_off (zero past the end), set last_return_data, push the
success flag, charge the flat 40 and advance pc. -/
def callFinish (s : Evm) (oo osz : Nat) (ret : List Nat) (success : Bool) :
    Option (Evm × Option EvmError) :=
  let s1 := { s with memory := memCopyFrom s.memory oo ret 0 osz, last_return_data := ret }
  match s1.push (if success then 1 else 0) with
  | none => some (s1, some .StackOverflow)
  | some s2 => finishStep s2 40

/-- Shared tail of CREATE / CREATE2: push the created address (or 0),
charge the flat 32000 and advance pc. -/
def createFinish (s : Evm) (success : Bool) (created : Nat) :
    Option (Evm × Option EvmError) :=
  match s.push (if success then h160_to_u256 created else 0) with
  | none => some (s, some .StackOverflow)
  | some s1 => finishStep s1 32000

/-- The CALL arm (machine.rs:433). -/
def stepCall (runChild : Evm → Option (Evm × Option EvmError)) (s : Evm) :
    Option (Evm × Option EvmError) :=
  match s.popk 7 with
  | (none, s1) => some (s1, some .StackUnderflow)
  | (some vs, s1) =>
    let g := vs.getD 0 0
    let to_h := u256_to_h160 (vs.getD 1 0)
    let value := vs.getD 2 0
    let io := u256_to_usize (vs.getD 3 0)
    let isz := u256_to_usize (vs.getD 4 0)
    let oo := u256_to_usize (vs.getD 5 0)
    let osz := u256_to_usize (vs.getD 6 0)
    match s1.charge_memory (io + isz) with
    | (s2, some e) => some (s2, some e)
    | (s2, none) =>
    let s3 := s2.ensure_memory (io + isz)
    match s3.charge_memory (oo + osz) with
    | (s4, some e) => some (s4, some e)
    | (s4, none) =>
    let s5 := s4.ensure_memory (oo + osz)
    let input := memSlice s5.memory io isz
    let from_addr := s5.address.getD 0
    if 2 ^ 128 ≤ g then none
    else
    let fb := call_gas s5.gas g (value != 0)
    match s5.gas_dec (fb.2 : Int) with
    | (s6, some e) => some (s6, some e)
    | (s6, none) =>
    match s6.world with
    | none => callFinish s6 oo osz [] true
    | some w =>
      let w1 := w.touch from_addr
      if value ≤ (w1.getAcc from_addr).balance then
        match precompile to_h input with
        | some r => callFinish s6 oo osz r true
        | none =>
          let fromAcc := w1.getAcc from_addr
          let w2 := w1.setAcc from_addr { fromAcc with balance := fromAcc.balance - value }
          let w3 := w2.touch to_h
          let toAcc := w3.getAcc to_h
          let w4 := w3.setAcc to_h { toAcc with balance := toAcc.balance + value }
          let child := callChild s6 w4 to_h from_addr input fb.1 value
          match runChild child with
          | none => none
          | some (_, some _) => callFinish s6 oo osz [] false
          | some (c1, none) =>
            if c1.halted = some Halt.Revert then callFinish s6 oo osz c1.return_data false
            else callFinish { s6 with world := some (c1.world.getD w) } oo osz c1.return_data true
      else callFinish s6 oo osz [] false

/-- The CALLCODE arm (machine.rs:532): target's code in the current
address's context, no balance transfer. -/
def stepCallcode (runChild : Evm → Option (Evm × Option EvmError)) (s : Evm) :
    Option (Evm × Option EvmError) :=
  match s.popk 7 with
  | (none, s1) => some (s1, some .StackUnderflow)
  | (some vs, s1) =>
    let g := vs.getD 0 0
    let to_h := u256_to_h160 (vs.getD 1 0)
    let value := vs.getD 2 0
    let io := u256_to_usize (vs.getD 3 0)
    let isz := u256_to_usize (vs.getD 4 0)
    let oo := u256_to_usize (vs.getD 5 0)
    let osz := u256_to_usize (vs.getD 6 0)
    match s1.charge_memory (io + isz) with
    | (s2, some e) => some (s2, some e)
    | (s2, none) =>
    let s3 := s2.ensure_memory (io + isz)
    match s3.charge_memory (oo + osz) with
    | (s4, some e) => some (s4, some e)
    | (s4, none) =>
    let s5 := s4.ensure_memory (oo + osz)
    let input := memSlice s5.memory io isz
    let self_addr := s5.address.getD 0
    if 2 ^ 128 ≤ g then none
    else
    let fb := call_gas s5.gas g (value != 0)
    match s5.gas_dec (fb.2 : Int) with
    | (s6, some e) => some (s6, some e)
    | (s6, none) =>
    match s6.world with
    | none => callFinish s6 oo osz [] true
    | some w =>
      let w1 := w.touch self_addr
      if value ≤ (w1.getAcc self_addr).balance then
        match precompile to_h input with
        | some r => callFinish s6 oo osz r true
        | none =>
          let child := callcodeChild s6 w1 to_h self_addr input fb.1 value
          match runChild child with
          | none => none
          | some (_, some _) => callFinish s6 oo osz [] false
          | some (c1, none) =>
            if c1.halted = some Halt.Revert then callFinish s6 oo osz c1.return_data false
            else callFinish { s6 with world := some (c1.world.getD w) } oo osz c1.return_data true
      else callFinish s6 oo osz [] false

/-- The DELEGATECALL arm (machine.rs:576). -/
def stepDelegatecall (runChild : Evm → Option (Evm × Option EvmError)) (s : Evm) :
    Option (Evm × Option EvmError) :=
  match s.popk 6 with
  | (none, s1) => some (s1, some .StackUnderflow)
  | (some vs, s1) =>
    let g := vs.getD 0 0
    let to_h := u256_to_h160 (vs.getD 1 0)
    let io := u256_to_usize (vs.getD 2 0)
    let isz := u256_to_usize (vs.getD 3 0)
    let oo := u256_to_usize (vs.getD 4 0)
    let osz := u256_to_usize (vs.getD 5 0)
    match s1.charge_memory (io + isz) with
    | (s2, some e) => some (s2, some e)
    | (s2, none) =>
    let s3 := s2.ensure_memory (io + isz)
    match s3.charge_memory (oo + osz) with
    | (s4, some e) => some (s4, some e)
    | (s4, none) =>
    let s5 := s4.ensure_memory (oo + osz)
    let input := memSlice s5.memory io isz
    if 2 ^ 128 ≤ g then none
    else
    let fb := call_gas s5.gas g false
    match s5.gas_dec (fb.2 : Int) with
    | (s6, some e) => some (s6, some e)
    | (s6, none) =>
    match s6.world with
    | none => callFinish s6 oo osz [] true
    | some w =>
      match precompile to_h input with
      | some r => callFinish s6 oo osz r true
      | none =>
        let child := delegatecallChild s6 w to_h input fb.1
        match runChild child with
        | none => none
        | some (_, some _) => callFinish s6 oo osz [] false
        | some (c1, none) =>
          if c1.halted = some Halt.Revert then callFinish s6 oo osz c1.return_data false
          else callFinish { s6 with world := some (c1.world.getD w) } oo osz c1.return_data true

/-- The STATICCALL arm (machine.rs:491): no call_gas, the child simply
receives the parent's remaining gas; the child's world is written back
into the parent whenever the child ran without a frame error, including
when it reverted. -/
def stepStaticcall (runChild : Evm → Option (Evm × Option EvmError)) (s : Evm) :
    Option (Evm × Option EvmError) :=
  match s.popk 6 with
  | (none, s1) => some (s1, some .StackUnderflow)
  | (some vs, s1) =>
    let to_h := u256_to_h160 (vs.getD 1 0)
    let io := u256_to_usize (vs.getD 2 0)
    let isz := u256_to_usize (vs.getD 3 0)
    let oo := u256_to_usize (vs.getD 4 0)
    let osz := u256_to_usize (vs.getD 5 0)
    match s1.charge_memory (io + isz) with
    | (s2, some e) => some (s2, some e)
    | (s2, none) =>
    let s3 := s2.ensure_memory (io + isz)
    match s3.charge_memory (oo + osz) with
    | (s4, some e) => some (s4, some e)
    | (s4, none) =>
    let s5 := s4.ensure_memory (oo + osz)
    let input := memSlice s5.memory io isz
    match s5.world with
    | none => callFinish s5 oo osz [] true
    | some w =>
      let from_addr := s5.address.getD 0
      match precompile to_h input with
      | some r => callFinish s5 oo osz r true
      | none =>
        let child := staticcallChild s5 w to_h from_addr input
        match runChild child with
        | none => none
        | some (_, some _) => callFinish s5 oo osz [] false
        | some (c1, none) =>
          let s6 := { s5 with world := some (c1.world.getD w) }
          if c1.halted = some Halt.Revert then callFinish s6 oo osz c1.return_data false
          else callFinish s6 oo osz c1.return_data true

/-- The CREATE arm (machine.rs:617). -/
def stepCreate (keccak : List Nat → Nat) (runChild : Evm → Option (Evm × Option EvmError))
    (s : Evm) : Option (Evm × Option EvmError) :=
  if s.is_static then some (s, some .StaticViolation)
  else match s.popk 3 with
  | (none, s1) => some (s1, some .StackUnderflow)
  | (some vs, s1) =>
    let value := vs.getD 0 0
    let o := u256_to_usize (vs.getD 1 0)
    let sz := u256_to_usize (vs.getD 2 0)
    match s1.charge_memory (o + sz) with
    | (s2, some e) => some (s2, some e)
    | (s2, none) =>
    let s3 := s2.ensure_memory (o + sz)
    let init := memSlice s3.memory o sz
    match s3.world with
    | none => createFinish s3 false 0
    | some w =>
      let from_ := s3.address.getD 0
      let w1 := w.touch from_
      let acc := w1.getAcc from_
      if value ≤ acc.balance then
        let nonce := acc.nonce
        let w2 := w1.setAcc from_
          { acc with nonce := min (acc.nonce + 1) (2 ^ 64 - 1), balance := acc.balance - value }
        let created := create_address keccak from_ nonce
        let w3 := w2.touch created
        let entry := w3.getAcc created
        let w4 := w3.setAcc created { entry with balance := entry.balance + value }
        let child := createChild s3 w4 init created from_ value
        match runChild child with
        | none => none
        | some (_, some _) => createFinish s3 false 0
        | some (c1, none) =>
          if c1.halted = some Halt.Revert then createFinish s3 false 0
          else
            match c1.world with
            | some cw =>
              let cw1 := cw.touch created
              let e1 := cw1.getAcc created
              createFinish { s3 with world := some (cw1.setAcc created { e1 with code := c1.return_data }) } true created
            | none => createFinish s3 true created
      else createFinish s3 false 0

/-- The CREATE2 arm (machine.rs:660): salted address, no nonce bump. -/
def stepCreate2 (keccak : List Nat → Nat) (runChild : Evm → Option (Evm × Option EvmError))
    (s : Evm) : Option (Evm × Option EvmError) :=
  if s.is_static then some (s, some .StaticViolation)
  else match s.popk 4 with
  | (none, s1) => some (s1, some .StackUnderflow)
  | (some vs, s1) =>
    let value := vs.getD 0 0
    let o := u256_to_usize (vs.getD 1 0)
    let sz := u256_to_usize (vs.getD 2 0)
    let salt := vs.getD 3 0
    match s1.charge_memory (o + sz) with
    | (s2, some e) => some (s2, some e)
    | (s2, none) =>
    let s3 := s2.ensure_memory (o + sz)
    let init := memSlice s3.memory o sz
    match s3.world with
    | none => createFinish s3 false 0
    | some w =>
      let from_ := s3.address.getD 0
      let w1 := w.touch from_
      let acc := w1.getAcc from_
      if value ≤ acc.balance then
        let created := create2_address keccak from_ salt init
        let w2 := w1.setAcc from_ { acc with balance := acc.balance - value }
        let w3 := w2.touch created
        let entry := w3.getAcc created
        let w4 := w3.setAcc created { entry with balance := entry.balance + value }
        let child := createChild s3 w4 init created from_ value
        match runChild child with
        | none => none
        | some (_, some _) => createFinish s3 false 0
        | some (c1, none) =>
          if c1.halted = some Halt.Revert then createFinish s3 false 0
          else
            match c1.world with
            | some cw =>
              let cw1 := cw.touch created
              let e1 := cw1.getAcc created
              createFinish { s3 with world := some (cw1.setAcc created { e1 with code := c1.return_data }) } true created
            | none => createFinish s3 true created
      else createFinish s3 false 0

/-- The POP arm. -/
def stepPop (s : Evm) : Option (Evm × Option EvmError) :=
  match s.pop with
  | none => some (s, some .StackUnderflow)
  | some (_, s1) => finishStep s1 2

/-- Evm::step: gas guard, opcode fetch and dispatch, mirroring the match
in machine.rs. Indexing code[pc] out of bounds panics in Rust, hence none. -/
def dispatch (keccak : List Nat → Nat) (runChild : Evm → Option (Evm × Option EvmError))
    (s : Evm) (op : Nat) : Option (Evm × Option EvmError) :=
  if op = 0x00 then stepStop s
  else if op = 0x01 then arithArm s addWrap 3
  else if op = 0x02 then arithArm s mulWrap 5
  else if op = 0x03 then arithArm s subWrap 3
  else if op = 0x04 then arithArm s divU 5
  else if op = 0x10 then arithArm s (fun a b => if a < b then 1 else 0) 3
  else if op = 0x11 then arithArm s (fun a b => if b < a then 1 else 0) 3
  else if op = 0x14 then arithArm s (fun a b => if a = b then 1 else 0) 3
  else if op = 0x15 then unArm s (fun a => if a = 0 then 1 else 0) 3
  else if op = 0x16 then arithArm s Nat.land 3
  else if op = 0x17 then arithArm s Nat.lor 3
  else if op = 0x18 then arithArm s Nat.xor 3
  else if op = 0x19 then unArm s notU 3
  else if op = 0x20 then stepSha3 keccak s
  else if op = 0x30 then pushFin s (h160_to_u256 (s.address.getD 0)) 2
  else if op = 0x31 then stepBalance s
  else if op = 0x32 then pushFin s (h160_to_u256 (s.origin.getD 0)) 2
  else if op = 0x33 then pushFin s (h160_to_u256 (s.caller.getD 0)) 2
  else if op = 0x34 then pushFin s s.callvalue 2
  else if op = 0x3A then pushFin s s.gas_price 2
  else if op = 0x3B then stepExtcodesize s
  else if op = 0x3C then stepExtcodecopy s
  else if op = 0x3D then pushFin s s.last_return_data.length 2
  else if op = 0x3E then stepReturndatacopy s
  else if op = 0x3F then stepExtcodehash keccak s
  else if op = 0x40 then pushFin s 0 20
  else if op = 0x41 then pushFin s (h160_to_u256 s.block.coinbase) 2
  else if op = 0x42 then pushFin s s.block.timestamp 2
  else if op = 0x43 then pushFin s s.block.number 2
  else if op = 0x44 then pushFin s 0 2
  else if op = 0x45 then pushFin s s.block.gas_limit 2
  else if op = 0x46 then pushFin s s.block.chain_id 2
  else if op = 0x47 then
    pushFin s (((s.address.bind (fun a => s.world.bind (fun w => alistLookup w.accounts a))).map Account.balance).getD 0) 5
  else if op = 0x48 then pushFin s s.block.basefee 2
  else if op = 0x50 then stepPop s
  else if op = 0x51 then stepMload s
  else if op = 0x52 then stepMstore s
  else if op = 0x53 then stepMstore8 s
  else if op = 0x54 then stepSload s
  else if op = 0x55 then stepSstore s
  else if op = 0x56 then stepJump s
  else if op = 0x57 then stepJumpi s
  else if op = 0x5B then finishStep s 1
  else if op = 0x58 then pushFin s s.pc 2
  else if op = 0x59 then pushFin s s.memory.length 2
  else if op = 0x5A then pushFin s (if 0 < s.gas then s.gas.toNat else 0) 2
  else if op = 0x35 then stepCalldataload s
  else if op = 0x36 then pushFin s s.calldata.length 2
  else if op = 0x37 then stepCalldatacopy s
  else if op = 0x38 then pushFin s s.code.length 2
  else if op = 0x39 then stepCodecopy s
  else if op = 0x5F then pushFin s 0 2
  else if 0x60 ≤ op ∧ op ≤ 0x7F then stepPushN s op
  else if 0x80 ≤ op ∧ op ≤ 0x8F then stepDup s op
  else if 0x90 ≤ op ∧ op ≤ 0x9F then stepSwap s op
  else if op = 0xF3 then stepRet s
  else if op = 0xFD then stepRevert s
  else if 0xA0 ≤ op ∧ op ≤ 0xA4 then stepLog s op
  else if op = 0xF1 then stepCall runChild s
  else if op = 0xFA then stepStaticcall runChild s
  else if op = 0xF2 then stepCallcode runChild s
  else if op = 0xF4 then stepDelegatecall runChild s
  else if op = 0xF0 then stepCreate keccak runChild s
  else if op = 0xF5 then stepCreate2 keccak runChild s
  else some (s, some (.InvalidOpcode op s.pc))

/-- Evm::step: the entry gas check, the pc bound check (a pc at or past
the end of code is the Rust panic on code[pc], modelled as none), then
dispatch on the opcode byte. -/
def step (keccak : List Nat → Nat) (runChild : Evm → Option (Evm × Option EvmError))
    (s : Evm) : Option (Evm × Option EvmError) :=
  if s.gas ≤ 0 then some (s, some .OutOfGas)
  else if s.code.length ≤ s.pc then none
  else dispatch keccak runChild s (s.code.getD s.pc 0)

/-- Evm::run with explicit fuel: step while pc is in code and the frame
has not halted; a step error aborts the loop with the partly mutated
state, exactly like the question-mark operator in the source. -/
def runF (keccak : List Nat → Nat) : Nat → Evm → Option (Evm × Option EvmError)
  | 0, _ => none
  | fuel + 1, s =>
    if s.pc < s.code.length ∧ s.halted = none then
      match step keccak (runF keccak fuel) s with
      | none => none
      | some (s1, some e) => some (s1, some e)
      | some (s1, none) => runF keccak fuel s1
    else some (s, none)

/-- One step of the machine, children run with the given fuel. -/
def stepF (keccak : List Nat → Nat) (fuel : Nat) (s : Evm) : Option (Evm × Option EvmError) :=
  step keccak (runF keccak fuel) s

/-- The fields an OutOfGas failure leaves intact, together with gas
monotonicity (the gas counter only ever decreases within a step). -/
def Quiet (s t : Evm) : Prop :=
  t.halted = s.halted ∧ t.refund = s.refund ∧ t.storage = s.storage ∧
  t.return_data = s.return_data ∧ t.gas ≤ s.gas

/-- Contract satisfied by every instruction arm of step: an OutOfGas
result preserves the Quiet fields; the 1024 stack bound is preserved and
a StackOverflow result leaves the state untouched; a result that is not
halted keeps return_data. -/
def StepOk (s : Evm) (r : Option (Evm × Option EvmError)) : Prop :=
  0 < s.gas → ∀ t e, r = some (t, e) →
    (e = some EvmError.OutOfGas → Quiet s t) ∧
    (s.stack.length ≤ 1024 → t.stack.length ≤ 1024 ∧ (e = some EvmError.StackOverflow → t = s)) ∧
    (t.halted = none → t.return_data = s.return_data)

/-- A trivial stand-in for keccak-256 used by the concrete executions
below; no observed value depends on the hash. -/
def kZero : List Nat → Nat := fun _ => 0

/-- All-zero block environment. -/
def blk0 : BlockEnv := ⟨0, 0, 0, 0, 0, 0⟩

/-- Minimal configuration: a gas limit and nothing else. -/
def cfg0 (g : Int) : EvmConfig := ⟨g, [], none, none, none, 0, 0, blk0, none⟩

/-- Bytecode of account 0xAA for the C1 scenario: CALL 0xBB with value 1
(gas 0, empty in/out regions), then REVERT with empty data. -/
def codeA1 : List Nat :=
  [0x60, 0x00, 0x60, 0x00, 0x60, 0x00, 0x60, 0x00, 0x60, 0x01, 0x60, 0xBB,
   0x60, 0x00, 0xF1, 0x60, 0x00, 0x60, 0x00, 0xFD]

/-- C1 world: account 0xAA with balance 10 running codeA1. -/
def worldC1 : World := ⟨[(0xAA, ⟨0, 10, codeA1, []⟩)]⟩

/-- Parent bytecode: STATICCALL to 0xAA (gas 0, empty regions), then STOP. -/
def parentCode : List Nat :=
  [0x60, 0x00, 0x60, 0x00, 0x60, 0x00, 0x60, 0x00, 0x60, 0xAA, 0x60, 0x00, 0xFA, 0x00]

/-- C1 top frame. -/
def parentC1 : Evm := Evm.new parentCode ⟨1000000, [], none, none, none, 0, 0, blk0, some worldC1⟩

/-- C2 counterexample frame: MSTORE of 0x42 at offset 0 with gas 100. -/
def exC2 : Evm := { Evm.new [0x52] (cfg0 100) with stack := [0, 0x42] }

/-- C3 world: account 0xAA whose code is a single STOP. -/
def worldC3 : World := ⟨[(0xAA, ⟨0, 0, [0x00], []⟩)]⟩

/-- C3 counterexample frame: the parent exactly at the STATICCALL, with
982 gas left and the six operands (requested gas 0) on the stack. -/
def sC3 : Evm :=
  { Evm.new parentCode ⟨1000, [], none, none, none, 0, 0, blk0, some worldC3⟩ with
    pc := 12, gas := 982, stack := [0, 0xAA, 0, 0, 0, 0] }

/-- C4 counterexample frame: ADD with 2 gas and stack [5, 7]. -/
def exC4 : Evm := { Evm.new [0x01] (cfg0 2) with stack := [5, 7] }

/-- C5 bytecode 0x600560030300: PUSH1 5; PUSH1 3; SUB; STOP. -/
def evC5 : Evm := Evm.new [0x60, 0x05, 0x60, 0x03, 0x03, 0x00] (cfg0 1000)

/-- C6 bytecode 0x6001: PUSH1 1 and run off the end of code. -/
def evC6 : Evm := Evm.new [0x60, 0x01] (cfg0 1000)

/-- C7 witness frame: SSTORE key 1 to 0 while it currently holds 7. -/
def exC7 : Evm := { Evm.new [0x55] (cfg0 100000) with stack := [1, 0], storage := [(1, 7)] }

/-- C9 witness frame: a PUSH0 step on an empty stack. -/
def exC9 : Evm := Evm.new [0x5F] (cfg0 100)

/-- C10 witness frame: ADD on an empty stack. -/
def exC10 : Evm := Evm.new [0x01] (cfg0 100)

/-- The call-gas forwarding rule exactly as the specification words it:
avail_after_base = max(0, gas - base), forward = min(requested,
avail_after_base - avail_after_base/64). -/
def spec_forward (gas : Int) (requested base : Nat) : Nat :=
  let avail_after_base : Nat := (max 0 (gas - base)).toNat
  min requested (avail_after_base - avail_after_base / 64)

theorem natCast_max_zero (n : Nat) : max ((n : Nat) : Int) 0 = (n : Int) :=
  max_eq_left (Int.natCast_nonneg n)

/-- finishStep as an explicit conditional. -/
theorem finishStep_eq (s : Evm) (c : Int) :
    finishStep s c =
      if s.gas - max c 0 < 0 then some ({ s with gas := s.gas - max c 0 }, some EvmError.OutOfGas)
      else some ({ s with gas := s.gas - max c 0, pc := s.pc + 1 }, none) := by
  by_cases hc : s.gas - max c 0 < 0 <;> simp [finishStep, Evm.gas_dec, hc]

/-- gasOnly as an explicit conditional. -/
theorem gasOnly_eq (s : Evm) (c : Int) :
    gasOnly s c =
      if s.gas - max c 0 < 0 then some ({ s with gas := s.gas - max c 0 }, some EvmError.OutOfGas)
      else some ({ s with gas := s.gas - max c 0 }, none) := by
  by_cases hc : s.gas - max c 0 < 0 <;> simp [gasOnly, Evm.gas_dec, hc]

/-- pushFin as an explicit conditional. -/
theorem pushFin_eq (s : Evm) (v : Nat) (c : Int) :
    pushFin s v c =
      if 1024 ≤ s.stack.length then some (s, some EvmError.StackOverflow)
      else finishStep { s with stack := v :: s.stack } c := by
  by_cases hl : 1024 ≤ s.stack.length <;> simp [pushFin, Evm.push, hl]

/-- charge_memory as an explicit conditional. -/
theorem charge_memory_eq (s : Evm) (n : Nat) :
    Evm.charge_memory s n =
      if words s.memory.length < words n then
        ({ s with gas := s.gas - ((mem_cost (words n) - mem_cost (words s.memory.length) : Nat) : Int) },
          if s.gas - ((mem_cost (words n) - mem_cost (words s.memory.length) : Nat) : Int) < 0
          then some EvmError.OutOfGas else none)
      else (s, none) := by
  by_cases hw : words s.memory.length < words n <;>
    simp [Evm.charge_memory, Evm.gas_dec, hw, natCast_max_zero]

theorem stepStop_ok (s : Evm) : StepOk s (stepStop s) := by
  intro hg t e h
  unfold stepStop Evm.gas_dec at h
  simp only [] at h
  split_ifs at h <;>
  simp only [Option.some.injEq, Prod.mk.injEq] at h <;>
  obtain ⟨rfl, rfl⟩ := h <;>
  refine ⟨fun he => ?_, fun hb => ?_, fun hh => ?_⟩ <;>
  simp_all [Quiet, sup_eq_max] <;> omega

theorem arithArm_ok (s : Evm) (f : Nat → Nat → Nat) (c : Int) : StepOk s (arithArm s f c) := by
  intro _ t e h
  unfold arithArm Evm.binop at h
  rw [finishStep_eq] at h
  split_ifs at h <;>
  simp only [Option.some.injEq, Prod.mk.injEq] at h <;>
  obtain ⟨rfl, rfl⟩ := h <;>
  refine ⟨fun he => ?_, fun hb => ?_, fun hh => ?_⟩ <;>
  simp_all [Quiet, sup_eq_max] <;> omega

theorem unArm_ok (s : Evm) (f : Nat → Nat) (c : Int) : StepOk s (unArm s f c) := by
  intro _ t e h
  unfold unArm Evm.unop at h
  rw [finishStep_eq] at h
  split_ifs at h <;>
  simp only [Option.some.injEq, Prod.mk.injEq] at h <;>
  obtain ⟨rfl, rfl⟩ := h <;>
  refine ⟨fun he => ?_, fun hb => ?_, fun hh => ?_⟩ <;>
  simp_all [Quiet, sup_eq_max] <;> omega

theorem finishStep_ok (s : Evm) (c : Int) : StepOk s (finishStep s c) := by
  intro _ t e h
  rw [finishStep_eq] at h
  split_ifs at h <;>
  simp only [Option.some.injEq, Prod.mk.injEq] at h <;>
  obtain ⟨rfl, rfl⟩ := h <;>
  refine ⟨fun he => ?_, fun hb => ?_, fun hh => ?_⟩ <;>
  simp_all [Quiet, sup_eq_max] <;> omega

theorem pushFin_ok (s : Evm) (v : Nat) (c : Int) : StepOk s (pushFin s v c) := by
  intro _ t e h
  rw [pushFin_eq] at h
  split_ifs at h with h1
  · simp only [Option.some.injEq, Prod.mk.injEq] at h
    obtain ⟨rfl, rfl⟩ := h
    refine ⟨fun he => ?_, fun hb => ?_, fun hh => ?_⟩ <;> simp_all [Quiet]
  · rw [finishStep_eq] at h
    split_ifs at h <;>
    simp only [Option.some.injEq, Prod.mk.injEq] at h <;>
    obtain ⟨rfl, rfl⟩ := h <;>
    refine ⟨fun he => ?_, fun hb => ?_, fun hh => ?_⟩ <;>
    simp_all [Quiet, sup_eq_max] <;> omega

theorem stepPop_ok (s : Evm) : StepOk s (stepPop s) := by
  intro _ t e h
  unfold stepPop Evm.pop at h
  rcases hs : s.stack with _ | ⟨v, l⟩ <;> rw [hs] at h
  · simp only [Option.some.injEq, Prod.mk.injEq] at h
    obtain ⟨rfl, rfl⟩ := h
    refine ⟨fun he => ?_, fun hb => ?_, fun hh => ?_⟩ <;> simp_all [Quiet]
  · simp only [] at h
    rw [finishStep_eq] at h
    split_ifs at h <;>
    simp only [Option.some.injEq, Prod.mk.injEq] at h <;>
    obtain ⟨rfl, rfl⟩ := h <;>
    refine ⟨fun he => ?_, fun hb => ?_, fun hh => ?_⟩ <;>
    simp_all [Quiet, sup_eq_max, hs] <;> omega

/-- Generic contract for arms of the shape: pop one operand, possibly
grow memory, push a computed value, charge, advance. -/
theorem popPush_ok (s : Evm) (mf : Nat → Evm → List Nat) (valf : Nat → Evm → Nat) (c : Int) :
    StepOk s (match s.pop with
      | none => some (s, some EvmError.StackUnderflow)
      | some (v, s1) => pushFin { s1 with memory := mf v s1 } (valf v s1) c) := by
  intro _ t e h
  unfold Evm.pop at h
  rcases hs : s.stack with _ | ⟨v, l⟩ <;> rw [hs] at h
  · simp only [Option.some.injEq, Prod.mk.injEq] at h
    obtain ⟨rfl, rfl⟩ := h
    refine ⟨fun he => ?_, fun hb => ?_, fun hh => ?_⟩ <;> simp_all [Quiet]
  · simp only [] at h
    rw [pushFin_eq] at h
    split_ifs at h with h1
    · simp only [Option.some.injEq, Prod.mk.injEq] at h
      obtain ⟨rfl, rfl⟩ := h
      refine ⟨fun he => ?_, fun hb => ?_, fun hh => ?_⟩ <;> simp_all [Quiet, hs] <;> omega
    · rw [finishStep_eq] at h
      split_ifs at h <;>
      simp only [Option.some.injEq, Prod.mk.injEq] at h <;>
      obtain ⟨rfl, rfl⟩ := h <;>
      refine ⟨fun he => ?_, fun hb => ?_, fun hh => ?_⟩ <;>
      simp_all [Quiet, sup_eq_max, hs] <;> omega

/-- Generic contract for arms of the shape: pop k operands, rebuild the
memory, charge, advance. -/
theorem popkMemFinish_ok (s : Evm) (k : Nat) (mf : List Nat → Evm → List Nat)
    (cf : List Nat → Evm → Int) :
    StepOk s (match s.popk k with
      | (none, s1) => some (s1, some EvmError.StackUnderflow)
      | (some vs, s1) => finishStep { s1 with memory := mf vs s1 } (cf vs s1)) := by
  intro _ t e h
  unfold Evm.popk at h
  by_cases hk : k ≤ s.stack.length
  · rw [if_pos hk] at h
    simp only [] at h
    rw [finishStep_eq] at h
    split_ifs at h <;>
    simp only [Option.some.injEq, Prod.mk.injEq] at h <;>
    obtain ⟨rfl, rfl⟩ := h <;>
    refine ⟨fun he => ?_, fun hb => ?_, fun hh => ?_⟩ <;>
    simp_all [Quiet, sup_eq_max] <;> omega
  · rw [if_neg hk] at h
    simp only [Option.some.injEq, Prod.mk.injEq] at h
    obtain ⟨rfl, rfl⟩ := h
    refine ⟨fun he => ?_, fun hb => ?_, fun hh => ?_⟩ <;> simp_all [Quiet]

/-- Generic contract for arms of the shape: pop k operands, possibly grow
memory, push a computed value, charge, advance. -/
theorem popkPush_ok (s : Evm) (k : Nat) (hkpos : 0 < k) (mf : List Nat → Evm → List Nat)
    (valf : List Nat → Evm → Nat) (cf : List Nat → Evm → Int) :
    StepOk s (match s.popk k with
      | (none, s1) => some (s1, some EvmError.StackUnderflow)
      | (some vs, s1) => pushFin { s1 with memory := mf vs s1 } (valf vs s1) (cf vs s1)) := by
  intro _ t e h
  unfold Evm.popk at h
  by_cases hk : k ≤ s.stack.length
  · rw [if_pos hk] at h
    simp only [] at h
    rw [pushFin_eq] at h
    split_ifs at h with h1
    · simp only [Option.some.injEq, Prod.mk.injEq] at h
      obtain ⟨rfl, rfl⟩ := h
      refine ⟨fun he => ?_, fun hb => ?_, fun hh => ?_⟩ <;> simp_all [Quiet] <;> omega
    · rw [finishStep_eq] at h
      split_ifs at h <;>
      simp only [Option.some.injEq, Prod.mk.injEq] at h <;>
      obtain ⟨rfl, rfl⟩ := h <;>
      refine ⟨fun he => ?_, fun hb => ?_, fun hh => ?_⟩ <;>
      simp_all [Quiet, sup_eq_max] <;> omega
  · rw [if_neg hk] at h
    simp only [Option.some.injEq, Prod.mk.injEq] at h
    obtain ⟨rfl, rfl⟩ := h
    refine ⟨fun he => ?_, fun hb => ?_, fun hh => ?_⟩ <;> simp_all [Quiet]

/-- Generic contract for the copy arms: pop k operands, charge for memory
expansion, grow memory, write, charge the flat plus per-word cost, advance. -/
theorem popkChargeCopy_ok (s : Evm) (k : Nat) (nf : List Nat → Nat)
    (mf : List Nat → Evm → Evm → List Nat) (cf : List Nat → Int) :
    StepOk s (match s.popk k with
      | (none, s1) => some (s1, some EvmError.StackUnderflow)
      | (some vs, s1) =>
        match s1.charge_memory (nf vs) with
        | (s2, some e) => some (s2, some e)
        | (s2, none) => finishStep { s2.ensure_memory (nf vs) with memory := mf vs s1 s2 } (cf vs)) := by
  intro _ t e h
  unfold Evm.popk Evm.ensure_memory at h
  by_cases hk : k ≤ s.stack.length
  · rw [if_pos hk] at h
    simp only [] at h
    rw [charge_memory_eq] at h
    split_ifs at h with h1 h2
    · simp only [Option.some.injEq, Prod.mk.injEq] at h
      obtain ⟨rfl, rfl⟩ := h
      refine ⟨fun he => ?_, fun hb => ?_, fun hh => ?_⟩ <;>
      simp_all [Quiet, sup_eq_max] <;> omega
    · simp only [] at h
      rw [finishStep_eq] at h
      split_ifs at h <;>
      simp only [Option.some.injEq, Prod.mk.injEq] at h <;>
      obtain ⟨rfl, rfl⟩ := h <;>
      refine ⟨fun he => ?_, fun hb => ?_, fun hh => ?_⟩ <;>
      simp_all [Quiet, sup_eq_max] <;> omega
    · simp only [] at h
      rw [finishStep_eq] at h
      split_ifs at h <;>
      simp only [Option.some.injEq, Prod.mk.injEq] at h <;>
      obtain ⟨rfl, rfl⟩ := h <;>
      refine ⟨fun he => ?_, fun hb => ?_, fun hh => ?_⟩ <;>
      simp_all [Quiet, sup_eq_max] <;> omega
  · rw [if_neg hk] at h
    simp only [Option.some.injEq, Prod.mk.injEq] at h
    obtain ⟨rfl, rfl⟩ := h
    refine ⟨fun he => ?_, fun hb => ?_, fun hh => ?_⟩ <;> simp_all [Quiet]

theorem stepBalance_ok (s : Evm) : StepOk s (stepBalance s) := by
  unfold stepBalance
  exact popPush_ok s (fun _ s1 => s1.memory) _ 100

theorem stepExtcodesize_ok (s : Evm) : StepOk s (stepExtcodesize s) := by
  unfold stepExtcodesize
  exact popPush_ok s (fun _ s1 => s1.memory) _ 100

theorem stepExtcodehash_ok (keccak : List Nat → Nat) (s : Evm) :
    StepOk s (stepExtcodehash keccak s) := by
  unfold stepExtcodehash
  exact popPush_ok s (fun _ s1 => s1.memory) _ 400

theorem stepSload_ok (s : Evm) : StepOk s (stepSload s) := by
  unfold stepSload
  exact popPush_ok s (fun _ s1 => s1.memory) _ 100

theorem stepMload_ok (s : Evm) : StepOk s (stepMload s) := by
  unfold stepMload Evm.ensure_memory
  exact popPush_ok s _ _ 3

theorem stepCalldataload_ok (s : Evm) : StepOk s (stepCalldataload s) := by
  unfold stepCalldataload
  exact popPush_ok s (fun _ s1 => s1.memory) _ 3

theorem stepSha3_ok (keccak : List Nat → Nat) (s : Evm) : StepOk s (stepSha3 keccak s) := by
  unfold stepSha3 Evm.ensure_memory
  exact popkPush_ok s 2 (by omega) _ _ _

theorem stepMstore_ok (s : Evm) : StepOk s (stepMstore s) := by
  unfold stepMstore Evm.ensure_memory
  exact popkMemFinish_ok s 2 _ _

theorem stepMstore8_ok (s : Evm) : StepOk s (stepMstore8 s) := by
  unfold stepMstore8 Evm.ensure_memory
  exact popkMemFinish_ok s 2 _ _

theorem stepCalldatacopy_ok (s : Evm) : StepOk s (stepCalldatacopy s) := by
  unfold stepCalldatacopy
  exact popkChargeCopy_ok s 3 _ _ _

theorem stepCodecopy_ok (s : Evm) : StepOk s (stepCodecopy s) := by
  unfold stepCodecopy
  exact popkChargeCopy_ok s 3 _ _ _

theorem stepReturndatacopy_ok (s : Evm) : StepOk s (stepReturndatacopy s) := by
  unfold stepReturndatacopy
  exact popkChargeCopy_ok s 3 _ _ _

theorem stepExtcodecopy_ok (s : Evm) : StepOk s (stepExtcodecopy s) := by
  unfold stepExtcodecopy
  exact popkChargeCopy_ok s 4 _ _ _

theorem stepJump_ok (s : Evm) : StepOk s (stepJump s) := by
  intro _ t e h
  unfold stepJump Evm.pop Evm.gas_dec at h
  rcases hs : s.stack with _ | ⟨v, l⟩ <;> rw [hs] at h
  · simp only [Option.some.injEq, Prod.mk.injEq] at h
    obtain ⟨rfl, rfl⟩ := h
    refine ⟨fun he => ?_, fun hb => ?_, fun hh => ?_⟩ <;> simp_all [Quiet]
  · simp only [] at h
    split_ifs at h <;>
    simp only [Option.some.injEq, Prod.mk.injEq] at h <;>
    obtain ⟨rfl, rfl⟩ := h <;>
    refine ⟨fun he => ?_, fun hb => ?_, fun hh => ?_⟩ <;>
    simp_all [Quiet, sup_eq_max, hs] <;> omega

theorem stepJumpi_ok (s : Evm) : StepOk s (stepJumpi s) := by
  intro _ t e h
  unfold stepJumpi at h
  unfold Evm.popk at h
  by_cases hk : 2 ≤ s.stack.length
  · rw [if_pos hk] at h
    simp only [] at h
    rw [gasOnly_eq, gasOnly_eq] at h
    split_ifs at h <;>
    simp only [Option.some.injEq, Prod.mk.injEq] at h <;>
    obtain ⟨rfl, rfl⟩ := h <;>
    refine ⟨fun he => ?_, fun hb => ?_, fun hh => ?_⟩ <;>
    simp_all [Quiet, sup_eq_max] <;> omega
  · rw [if_neg hk] at h
    simp only [Option.some.injEq, Prod.mk.injEq] at h
    obtain ⟨rfl, rfl⟩ := h
    refine ⟨fun he => ?_, fun hb => ?_, fun hh => ?_⟩ <;> simp_all [Quiet]

theorem sstore_stack (s : Evm) (k v : Nat) : (Evm.sstore s k v).stack = s.stack := by
  unfold Evm.sstore; split <;> rfl

theorem sstore_halted (s : Evm) (k v : Nat) : (Evm.sstore s k v).halted = s.halted := by
  unfold Evm.sstore; split <;> rfl

theorem sstore_return_data (s : Evm) (k v : Nat) : (Evm.sstore s k v).return_data = s.return_data := by
  unfold Evm.sstore; split <;> rfl

theorem sstore_gas (s : Evm) (k v : Nat) : (Evm.sstore s k v).gas = s.gas := by
  unfold Evm.sstore; split <;> rfl

theorem sstore_pc (s : Evm) (k v : Nat) : (Evm.sstore s k v).pc = s.pc := by
  unfold Evm.sstore; split <;> rfl

theorem sstore_refund (s : Evm) (k v : Nat) : (Evm.sstore s k v).refund = s.refund := by
  unfold Evm.sstore; split <;> rfl

/-- gasThenPc as an explicit conditional. -/
theorem gasThenPc_eq (s : Evm) (c : Int) (p : Nat) :
    gasThenPc s c p =
      if s.gas - max c 0 < 0 then some ({ s with gas := s.gas - max c 0 }, some EvmError.OutOfGas)
      else some ({ s with gas := s.gas - max c 0, pc := p }, none) := by
  by_cases hc : s.gas - max c 0 < 0 <;> simp [gasThenPc, Evm.gas_dec, hc]

theorem stepPushN_ok (s : Evm) (op : Nat) : StepOk s (stepPushN s op) := by
  intro _ t e h
  unfold stepPushN Evm.push at h
  dsimp only at h
  split_ifs at h <;> (try simp only [] at h) <;>
  first
  | (simp only [Option.some.injEq, Prod.mk.injEq] at h
     obtain ⟨rfl, rfl⟩ := h
     refine ⟨fun he => ?_, fun hb => ?_, fun hh => ?_⟩ <;> simp_all [Quiet, sup_eq_max] <;> omega)
  | (rw [gasThenPc_eq] at h
     split_ifs at h <;>
     simp only [Option.some.injEq, Prod.mk.injEq] at h <;>
     obtain ⟨rfl, rfl⟩ := h <;>
     refine ⟨fun he => ?_, fun hb => ?_, fun hh => ?_⟩ <;>
     simp_all [Quiet, sup_eq_max] <;> omega)

theorem stepDup_ok (s : Evm) (op : Nat) : StepOk s (stepDup s op) := by
  intro hg t e h
  unfold stepDup at h
  dsimp only at h
  split_ifs at h with h1
  · simp only [Option.some.injEq, Prod.mk.injEq] at h
    obtain ⟨rfl, rfl⟩ := h
    refine ⟨fun he => ?_, fun hb => ?_, fun hh => ?_⟩ <;> simp_all [Quiet]
  · exact (pushFin_ok s _ 3) hg t e h

theorem stepSwap_ok (s : Evm) (op : Nat) : StepOk s (stepSwap s op) := by
  intro _ t e h
  unfold stepSwap at h
  dsimp only at h
  split_ifs at h with h1
  · simp only [Option.some.injEq, Prod.mk.injEq] at h
    obtain ⟨rfl, rfl⟩ := h
    refine ⟨fun he => ?_, fun hb => ?_, fun hh => ?_⟩ <;> simp_all [Quiet]
  · rw [finishStep_eq] at h
    split_ifs at h <;>
    simp only [Option.some.injEq, Prod.mk.injEq] at h <;>
    obtain ⟨rfl, rfl⟩ := h <;>
    refine ⟨fun he => ?_, fun hb => ?_, fun hh => ?_⟩ <;>
    simp_all [Quiet, sup_eq_max] <;> omega

theorem stepRet_ok (s : Evm) : StepOk s (stepRet s) := by
  intro hg t e h
  unfold stepRet Evm.ensure_memory Evm.gas_dec at h
  unfold Evm.popk at h
  by_cases hk : 2 ≤ s.stack.length
  · rw [if_pos hk] at h
    simp only [] at h
    split_ifs at h with hcond
    · exfalso
      simp at hcond
      omega
    · simp only [Option.some.injEq, Prod.mk.injEq] at h
      obtain ⟨rfl, rfl⟩ := h
      refine ⟨fun he => ?_, fun hb => ?_, fun hh => ?_⟩ <;> simp_all [Quiet] <;> omega
  · rw [if_neg hk] at h
    simp only [Option.some.injEq, Prod.mk.injEq] at h
    obtain ⟨rfl, rfl⟩ := h
    refine ⟨fun he => ?_, fun hb => ?_, fun hh => ?_⟩ <;> simp_all [Quiet]

theorem stepRevert_ok (s : Evm) : StepOk s (stepRevert s) := by
  intro hg t e h
  unfold stepRevert Evm.ensure_memory Evm.gas_dec at h
  unfold Evm.popk at h
  by_cases hk : 2 ≤ s.stack.length
  · rw [if_pos hk] at h
    simp only [] at h
    split_ifs at h with hcond
    · exfalso
      simp at hcond
      omega
    · simp only [Option.some.injEq, Prod.mk.injEq] at h
      obtain ⟨rfl, rfl⟩ := h
      refine ⟨fun he => ?_, fun hb => ?_, fun hh => ?_⟩ <;> simp_all [Quiet] <;> omega
  · rw [if_neg hk] at h
    simp only [Option.some.injEq, Prod.mk.injEq] at h
    obtain ⟨rfl, rfl⟩ := h
    refine ⟨fun he => ?_, fun hb => ?_, fun hh => ?_⟩ <;> simp_all [Quiet]

theorem stepLog_ok (s : Evm) (op : Nat) : StepOk s (stepLog s op) := by
  intro _ t e h
  unfold stepLog Evm.ensure_memory at h
  split_ifs at h with hst
  · simp only [Option.some.injEq, Prod.mk.injEq] at h
    obtain ⟨rfl, rfl⟩ := h
    refine ⟨fun he => ?_, fun hb => ?_, fun hh => ?_⟩ <;> simp_all [Quiet]
  · unfold Evm.popk at h
    by_cases hk : 2 ≤ s.stack.length
    · rw [if_pos hk] at h
      simp only [] at h
      split_ifs at h with hk2
      · simp only [] at h
        rw [finishStep_eq] at h
        split_ifs at h <;>
        simp only [Option.some.injEq, Prod.mk.injEq] at h <;>
        obtain ⟨rfl, rfl⟩ := h <;>
        refine ⟨fun he => ?_, fun hb => ?_, fun hh => ?_⟩ <;>
        simp_all [Quiet, sup_eq_max] <;> omega
      · simp only [Option.some.injEq, Prod.mk.injEq] at h
        obtain ⟨rfl, rfl⟩ := h
        refine ⟨fun he => ?_, fun hb => ?_, fun hh => ?_⟩ <;> simp_all [Quiet]
    · rw [if_neg hk] at h
      simp only [Option.some.injEq, Prod.mk.injEq] at h
      obtain ⟨rfl, rfl⟩ := h
      refine ⟨fun he => ?_, fun hb => ?_, fun hh => ?_⟩ <;> simp_all [Quiet]

theorem stepSstore_ok (s : Evm) : StepOk s (stepSstore s) := by
  intro _ t e h
  unfold stepSstore Evm.gas_dec at h
  split_ifs at h with hst
  · simp only [Option.some.injEq, Prod.mk.injEq] at h
    obtain ⟨rfl, rfl⟩ := h
    refine ⟨fun he => ?_, fun hb => ?_, fun hh => ?_⟩ <;> simp_all [Quiet]
  · unfold Evm.popk at h
    by_cases hk : 2 ≤ s.stack.length
    · rw [if_pos hk] at h
      simp only [] at h
      split_ifs at h <;>
      simp only [Option.some.injEq, Prod.mk.injEq] at h <;>
      obtain ⟨rfl, rfl⟩ := h <;>
      refine ⟨fun he => ?_, fun hb => ?_, fun hh => ?_⟩ <;>
      simp_all [Quiet, sup_eq_max, sstore_stack, sstore_halted, sstore_return_data,
        sstore_gas, sstore_pc, sstore_refund] <;> omega
    · rw [if_neg hk] at h
      simp only [Option.some.injEq, Prod.mk.injEq] at h
      obtain ⟨rfl, rfl⟩ := h
      refine ⟨fun he => ?_, fun hb => ?_, fun hh => ?_⟩ <;> simp_all [Quiet]

theorem callFinish_stepOk (s u : Evm) (oo osz : Nat) (ret : List Nat) (b : Bool)
    (hh : u.halted = s.halted) (hr : u.refund = s.refund) (hsg : u.storage = s.storage)
    (hrd : u.return_data = s.return_data) (hg2 : u.gas ≤ s.gas)
    (hlen : u.stack.length < s.stack.length) :
    StepOk s (callFinish u oo osz ret b) := by
  intro _ t e h
  unfold callFinish Evm.push at h
  dsimp only at h
  split_ifs at h <;> (try simp only [] at h) <;>
  first
  | (simp only [Option.some.injEq, Prod.mk.injEq] at h
     obtain ⟨rfl, rfl⟩ := h
     refine ⟨fun he => ?_, fun hb => ⟨?_, fun hov => absurd hb (by omega)⟩, fun hh2 => ?_⟩ <;>
     simp_all [Quiet] <;> omega)
  | (rw [finishStep_eq] at h
     split_ifs at h <;>
     simp only [Option.some.injEq, Prod.mk.injEq] at h <;>
     obtain ⟨rfl, rfl⟩ := h <;>
     refine ⟨fun he => ?_, fun hb => ⟨?_, fun hov => ?_⟩, fun hh2 => ?_⟩ <;>
     simp_all [Quiet, sup_eq_max] <;> omega)

theorem staticRest_ok (s u : Evm) (rc : Evm → Option (Evm × Option EvmError))
    (wo : Option World) (to_h oo osz : Nat) (input : List Nat)
    (hh : u.halted = s.halted) (hr : u.refund = s.refund) (hsg : u.storage = s.storage)
    (hrd : u.return_data = s.return_data) (hg2 : u.gas ≤ s.gas)
    (hlen : u.stack.length < s.stack.length) :
    StepOk s (match wo with
      | none => callFinish u oo osz [] true
      | some w =>
        match precompile to_h input with
        | some r => callFinish u oo osz r true
        | none =>
          match rc (staticcallChild u w to_h (u.address.getD 0) input) with
          | none => none
          | some (_, some _) => callFinish u oo osz [] false
          | some (c1, none) =>
            let u2 := { u with world := some (c1.world.getD w) }
            if c1.halted = some Halt.Revert then callFinish u2 oo osz c1.return_data false
            else callFinish u2 oo osz c1.return_data true) := by
  intro hg t e h
  rcases wo with _ | w <;> (try simp only [] at h)
  · exact callFinish_stepOk s u oo osz [] true hh hr hsg hrd hg2 hlen hg t e h
  · rcases hpc : precompile to_h input with _ | r <;> rw [hpc] at h <;> (try simp only [] at h)
    · rcases hrc : rc (staticcallChild u w to_h (u.address.getD 0) input) with _ | ⟨c1, ce⟩ <;>
        rw [hrc] at h <;> (try simp only [] at h)
      · exact Option.noConfusion h
      · rcases ce with _ | ce2
        · simp only [] at h
          split_ifs at h <;>
          exact callFinish_stepOk s { u with world := some (c1.world.getD w) } oo osz
            c1.return_data _ hh hr hsg hrd hg2 hlen hg t e h
        · exact callFinish_stepOk s u oo osz [] false hh hr hsg hrd hg2 hlen hg t e h
    · exact callFinish_stepOk s u oo osz r true hh hr hsg hrd hg2 hlen hg t e h

theorem stepStaticcall_ok (rc : Evm → Option (Evm × Option EvmError)) (s : Evm) :
    StepOk s (stepStaticcall rc s) := by
  intro hg t e h
  unfold stepStaticcall Evm.ensure_memory at h
  unfold Evm.popk at h
  by_cases hk : 6 ≤ s.stack.length
  case neg =>
    rw [if_neg hk] at h
    simp only [Option.some.injEq, Prod.mk.injEq] at h
    obtain ⟨rfl, rfl⟩ := h
    refine ⟨fun he => ?_, fun hb => ⟨?_, fun hov => ?_⟩, fun hh2 => ?_⟩ <;> simp_all [Quiet]
  case pos =>
    rw [if_pos hk] at h
    simp only [] at h
    rw [charge_memory_eq] at h
    split_ifs at h with hc1 hgas1
    · simp only [Option.some.injEq, Prod.mk.injEq] at h
      obtain ⟨rfl, rfl⟩ := h
      refine ⟨fun he => ?_, fun hb => ⟨?_, fun hov => ?_⟩, fun hh2 => ?_⟩ <;>
        simp_all [Quiet] <;> omega
    · simp only [] at h
      rw [charge_memory_eq] at h
      split_ifs at h with hc2 hgas2
      · simp only [Option.some.injEq, Prod.mk.injEq] at h
        obtain ⟨rfl, rfl⟩ := h
        refine ⟨fun he => ?_, fun hb => ⟨?_, fun hov => ?_⟩, fun hh2 => ?_⟩ <;>
          simp_all [Quiet] <;> omega
      · simp only [] at h
        apply staticRest_ok s _ rc _ _ _ _ _ _ _ _ _ _ _ hg t e h <;>
          first | rfl | (simp <;> omega)
      · simp only [] at h
        apply staticRest_ok s _ rc _ _ _ _ _ _ _ _ _ _ _ hg t e h <;>
          first | rfl | (simp <;> omega)
    · simp only [] at h
      rw [charge_memory_eq] at h
      split_ifs at h with hc2 hgas2
      · simp only [Option.some.injEq, Prod.mk.injEq] at h
        obtain ⟨rfl, rfl⟩ := h
        refine ⟨fun he => ?_, fun hb => ⟨?_, fun hov => ?_⟩, fun hh2 => ?_⟩ <;>
          simp_all [Quiet] <;> omega
      · simp only [] at h
        apply staticRest_ok s _ rc _ _ _ _ _ _ _ _ _ _ _ hg t e h <;>
          first | rfl | (simp <;> omega)
      · simp only [] at h
        apply staticRest_ok s _ rc _ _ _ _ _ _ _ _ _ _ _ hg t e h <;>
          first | rfl | (simp <;> omega)

theorem createFinish_stepOk (s u : Evm) (b : Bool) (created : Nat)
    (hh : u.halted = s.halted) (hr : u.refund = s.refund) (hsg : u.storage = s.storage)
    (hrd : u.return_data = s.return_data) (hg2 : u.gas ≤ s.gas)
    (hlen : u.stack.length < s.stack.length) :
    StepOk s (createFinish u b created) := by
  intro _ t e h
  unfold createFinish Evm.push at h
  split_ifs at h with hpush hb1 <;> (try simp only [] at h)
  · simp only [Option.some.injEq, Prod.mk.injEq] at h
    obtain ⟨rfl, rfl⟩ := h
    refine ⟨fun he => ?_, fun hb => ⟨?_, fun hov => ?_⟩, fun hh2 => ?_⟩
    · exact absurd he (by simp)
    · omega
    · exact absurd hb (by omega)
    · exact hrd
  · rw [finishStep_eq] at h
    split_ifs at h <;>
    simp only [Option.some.injEq, Prod.mk.injEq] at h <;>
    obtain ⟨rfl, rfl⟩ := h <;>
    refine ⟨fun he => ?_, fun hb => ⟨?_, fun hov => ?_⟩, fun hh2 => ?_⟩ <;>
    simp_all [Quiet, sup_eq_max] <;> omega
  · rw [finishStep_eq] at h
    split_ifs at h <;>
    simp only [Option.some.injEq, Prod.mk.injEq] at h <;>
    obtain ⟨rfl, rfl⟩ := h <;>
    refine ⟨fun he => ?_, fun hb => ⟨?_, fun hov => ?_⟩, fun hh2 => ?_⟩ <;>
    simp_all [Quiet, sup_eq_max] <;> omega

theorem callRest_ok (s u : Evm) (rc : Evm → Option (Evm × Option EvmError))
    (wo : Option World) (addr value to_h oo osz : Nat) (input : List Nat)
    (chf : World → Evm)
    (hh : u.halted = s.halted) (hr : u.refund = s.refund) (hsg : u.storage = s.storage)
    (hrd : u.return_data = s.return_data) (hg2 : u.gas ≤ s.gas)
    (hlen : u.stack.length < s.stack.length) :
    StepOk s (match wo with
      | none => callFinish u oo osz [] true
      | some w =>
        if value ≤ ((w.touch addr).getAcc addr).balance then
          match precompile to_h input with
          | some r => callFinish u oo osz r true
          | none =>
            match rc (chf w) with
            | none => none
            | some (_, some _) => callFinish u oo osz [] false
            | some (c1, none) =>
              if c1.halted = some Halt.Revert then callFinish u oo osz c1.return_data false
              else callFinish { u with world := some (c1.world.getD w) } oo osz c1.return_data true
        else callFinish u oo osz [] false) := by
  intro hg t e h
  rcases wo with _ | w <;> (try simp only [] at h)
  · exact callFinish_stepOk s u oo osz [] true hh hr hsg hrd hg2 hlen hg t e h
  · split_ifs at h with hbal
    · rcases hpc : precompile to_h input with _ | r <;> rw [hpc] at h <;> (try simp only [] at h)
      · rcases hrc : rc (chf w) with _ | ⟨c1, ce⟩ <;> rw [hrc] at h <;> (try simp only [] at h)
        · exact Option.noConfusion h
        · rcases ce with _ | ce2
          · simp only [] at h
            split_ifs at h
            · exact callFinish_stepOk s u oo osz c1.return_data false hh hr hsg hrd hg2 hlen
                hg t e h
            · exact callFinish_stepOk s { u with world := some (c1.world.getD w) } oo osz
                c1.return_data true hh hr hsg hrd hg2 hlen hg t e h
          · exact callFinish_stepOk s u oo osz [] false hh hr hsg hrd hg2 hlen hg t e h
      · exact callFinish_stepOk s u oo osz r true hh hr hsg hrd hg2 hlen hg t e h
    · exact callFinish_stepOk s u oo osz [] false hh hr hsg hrd hg2 hlen hg t e h

theorem delegateRest_ok (s u : Evm) (rc : Evm → Option (Evm × Option EvmError))
    (wo : Option World) (to_h oo osz : Nat) (input : List Nat)
    (chf : World → Evm)
    (hh : u.halted = s.halted) (hr : u.refund = s.refund) (hsg : u.storage = s.storage)
    (hrd : u.return_data = s.return_data) (hg2 : u.gas ≤ s.gas)
    (hlen : u.stack.length < s.stack.length) :
    StepOk s (match wo with
      | none => callFinish u oo osz [] true
      | some w =>
        match precompile to_h input with
        | some r => callFinish u oo osz r true
        | none =>
          match rc (chf w) with
          | none => none
          | some (_, some _) => callFinish u oo osz [] false
          | some (c1, none) =>
            if c1.halted = some Halt.Revert then callFinish u oo osz c1.return_data false
            else callFinish { u with world := some (c1.world.getD w) } oo osz c1.return_data true) := by
  intro hg t e h
  rcases wo with _ | w <;> (try simp only [] at h)
  · exact callFinish_stepOk s u oo osz [] true hh hr hsg hrd hg2 hlen hg t e h
  · rcases hpc : precompile to_h input with _ | r <;> rw [hpc] at h <;> (try simp only [] at h)
    · rcases hrc : rc (chf w) with _ | ⟨c1, ce⟩ <;> rw [hrc] at h <;> (try simp only [] at h)
      · exact Option.noConfusion h
      · rcases ce with _ | ce2
        · simp only [] at h
          split_ifs at h
          · exact callFinish_stepOk s u oo osz c1.return_data false hh hr hsg hrd hg2 hlen
              hg t e h
          · exact callFinish_stepOk s { u with world := some (c1.world.getD w) } oo osz
              c1.return_data true hh hr hsg hrd hg2 hlen hg t e h
        · exact callFinish_stepOk s u oo osz [] false hh hr hsg hrd hg2 hlen hg t e h
    · exact callFinish_stepOk s u oo osz r true hh hr hsg hrd hg2 hlen hg t e h

theorem createRest_ok (s u : Evm) (rc : Evm → Option (Evm × Option EvmError))
    (wo : Option World) (addr value : Nat)
    (chf : World → Evm) (cr : World → Nat)
    (hh : u.halted = s.halted) (hr : u.refund = s.refund) (hsg : u.storage = s.storage)
    (hrd : u.return_data = s.return_data) (hg2 : u.gas ≤ s.gas)
    (hlen : u.stack.length < s.stack.length) :
    StepOk s (match wo with
      | none => createFinish u false 0
      | some w =>
        if value ≤ ((w.touch addr).getAcc addr).balance then
          match rc (chf w) with
          | none => none
          | some (_, some _) => createFinish u false 0
          | some (c1, none) =>
            if c1.halted = some Halt.Revert then createFinish u false 0
            else
              match c1.world with
              | some cw =>
                createFinish { u with world := some ((cw.touch (cr w)).setAcc (cr w)
                  { (cw.touch (cr w)).getAcc (cr w) with code := c1.return_data }) } true (cr w)
              | none => createFinish u true (cr w)
        else createFinish u false 0) := by
  intro hg t e h
  rcases wo with _ | w <;> (try simp only [] at h)
  · exact createFinish_stepOk s u false 0 hh hr hsg hrd hg2 hlen hg t e h
  · split_ifs at h with hbal
    · rcases hrc : rc (chf w) with _ | ⟨c1, ce⟩ <;> rw [hrc] at h <;> (try simp only [] at h)
      · exact Option.noConfusion h
      · rcases ce with _ | ce2
        · simp only [] at h
          split_ifs at h
          · exact createFinish_stepOk s u false 0 hh hr hsg hrd hg2 hlen hg t e h
          · rcases hcw : c1.world with _ | cw <;> rw [hcw] at h <;> (try simp only [] at h)
            · exact createFinish_stepOk s u true (cr w) hh hr hsg hrd hg2 hlen hg t e h
            · exact createFinish_stepOk s { u with world := some ((cw.touch (cr w)).setAcc (cr w)
                { (cw.touch (cr w)).getAcc (cr w) with code := c1.return_data }) } true (cr w)
                hh hr hsg hrd hg2 hlen hg t e h
        · exact createFinish_stepOk s u false 0 hh hr hsg hrd hg2 hlen hg t e h
    · exact createFinish_stepOk s u false 0 hh hr hsg hrd hg2 hlen hg t e h

theorem stepCreate_ok (keccak : List Nat → Nat) (rc : Evm → Option (Evm × Option EvmError))
    (s : Evm) : StepOk s (stepCreate keccak rc s) := by
  intro hg t e h
  unfold stepCreate Evm.ensure_memory at h
  unfold Evm.popk at h
  by_cases hst : s.is_static = true
  case pos =>
    rw [if_pos hst] at h
    simp only [Option.some.injEq, Prod.mk.injEq] at h
    obtain ⟨rfl, rfl⟩ := h
    refine ⟨fun he => ?_, fun hb => ⟨?_, fun hov => ?_⟩, fun hh2 => ?_⟩ <;> simp_all [Quiet]
  case neg =>
    rw [if_neg hst] at h
    by_cases hk : 3 ≤ s.stack.length
    case neg =>
      rw [if_neg hk] at h
      simp only [Option.some.injEq, Prod.mk.injEq] at h
      obtain ⟨rfl, rfl⟩ := h
      refine ⟨fun he => ?_, fun hb => ⟨?_, fun hov => ?_⟩, fun hh2 => ?_⟩ <;> simp_all [Quiet]
    case pos =>
      rw [if_pos hk] at h
      simp only [] at h
      rw [charge_memory_eq] at h
      split_ifs at h with hc1 hgas1
      · simp only [Option.some.injEq, Prod.mk.injEq] at h
        obtain ⟨rfl, rfl⟩ := h
        refine ⟨fun he => ?_, fun hb => ⟨?_, fun hov => ?_⟩, fun hh2 => ?_⟩ <;>
          simp_all [Quiet, sup_eq_max, natCast_max_zero] <;> omega
      · simp only [] at h
        apply createRest_ok s _ rc _ _ _ _ _ _ _ _ _ _ _ hg t e h <;>
          first | rfl | (simp <;> omega) | (simp [sup_eq_max, natCast_max_zero] <;> omega)
      · simp only [] at h
        apply createRest_ok s _ rc _ _ _ _ _ _ _ _ _ _ _ hg t e h <;>
          first | rfl | (simp <;> omega) | (simp [sup_eq_max, natCast_max_zero] <;> omega)

theorem stepCreate2_ok (keccak : List Nat → Nat) (rc : Evm → Option (Evm × Option EvmError))
    (s : Evm) : StepOk s (stepCreate2 keccak rc s) := by
  intro hg t e h
  unfold stepCreate2 Evm.ensure_memory at h
  unfold Evm.popk at h
  by_cases hst : s.is_static = true
  case pos =>
    rw [if_pos hst] at h
    simp only [Option.some.injEq, Prod.mk.injEq] at h
    obtain ⟨rfl, rfl⟩ := h
    refine ⟨fun he => ?_, fun hb => ⟨?_, fun hov => ?_⟩, fun hh2 => ?_⟩ <;> simp_all [Quiet]
  case neg =>
    rw [if_neg hst] at h
    by_cases hk : 4 ≤ s.stack.length
    case neg =>
      rw [if_neg hk] at h
      simp only [Option.some.injEq, Prod.mk.injEq] at h
      obtain ⟨rfl, rfl⟩ := h
      refine ⟨fun he => ?_, fun hb => ⟨?_, fun hov => ?_⟩, fun hh2 => ?_⟩ <;> simp_all [Quiet]
    case pos =>
      rw [if_pos hk] at h
      simp only [] at h
      rw [charge_memory_eq] at h
      split_ifs at h with hc1 hgas1
      · simp only [Option.some.injEq, Prod.mk.injEq] at h
        obtain ⟨rfl, rfl⟩ := h
        refine ⟨fun he => ?_, fun hb => ⟨?_, fun hov => ?_⟩, fun hh2 => ?_⟩ <;>
          simp_all [Quiet, sup_eq_max, natCast_max_zero] <;> omega
      · simp only [] at h
        apply createRest_ok s _ rc _ _ _ _ _ _ _ _ _ _ _ hg t e h <;>
          first | rfl | (simp <;> omega) | (simp [sup_eq_max, natCast_max_zero] <;> omega)
      · simp only [] at h
        apply createRest_ok s _ rc _ _ _ _ _ _ _ _ _ _ _ hg t e h <;>
          first | rfl | (simp <;> omega) | (simp [sup_eq_max, natCast_max_zero] <;> omega)

theorem stepCall_ok (rc : Evm → Option (Evm × Option EvmError)) (s : Evm) :
    StepOk s (stepCall rc s) := by
  intro hg t e h
  unfold stepCall Evm.ensure_memory at h
  unfold Evm.popk at h
  by_cases hk : 7 ≤ s.stack.length
  case neg =>
    rw [if_neg hk] at h
    simp only [Option.some.injEq, Prod.mk.injEq] at h
    obtain ⟨rfl, rfl⟩ := h
    refine ⟨fun he => ?_, fun hb => ⟨?_, fun hov => ?_⟩, fun hh2 => ?_⟩ <;> simp_all [Quiet]
  case pos =>
    rw [if_pos hk] at h
    simp only [] at h
    rw [charge_memory_eq] at h
    split_ifs at h <;> (try simp only [] at h) <;>
    first
    | exact Option.noConfusion h
    | (simp only [Option.some.injEq, Prod.mk.injEq] at h
       obtain ⟨rfl, rfl⟩ := h
       refine ⟨fun he => ?_, fun hb => ⟨?_, fun hov => ?_⟩, fun hh2 => ?_⟩ <;>
         simp_all [Quiet, sup_eq_max, natCast_max_zero] <;> omega)
    | (rw [charge_memory_eq] at h
       split_ifs at h <;> (try simp only [] at h) <;>
       first
       | exact Option.noConfusion h
       | (simp only [Option.some.injEq, Prod.mk.injEq] at h
          obtain ⟨rfl, rfl⟩ := h
          refine ⟨fun he => ?_, fun hb => ⟨?_, fun hov => ?_⟩, fun hh2 => ?_⟩ <;>
            simp_all [Quiet, sup_eq_max, natCast_max_zero] <;> omega)
       | (unfold Evm.gas_dec at h
          simp only [] at h
          split_ifs at h <;> (try simp only [] at h) <;>
          first
          | exact Option.noConfusion h
          | (simp only [Option.some.injEq, Prod.mk.injEq] at h
             obtain ⟨rfl, rfl⟩ := h
             refine ⟨fun he => ?_, fun hb => ⟨?_, fun hov => ?_⟩, fun hh2 => ?_⟩ <;>
               simp_all [Quiet, sup_eq_max, natCast_max_zero] <;> omega)
          | (apply callRest_ok s _ rc _ _ _ _ _ _ _ _ _ _ _ _ _ _ hg t e h <;>
           first | rfl | (simp <;> omega) | (simp [sup_eq_max, natCast_max_zero] <;> omega))))

theorem stepCallcode_ok (rc : Evm → Option (Evm × Option EvmError)) (s : Evm) :
    StepOk s (stepCallcode rc s) := by
  intro hg t e h
  unfold stepCallcode Evm.ensure_memory at h
  unfold Evm.popk at h
  by_cases hk : 7 ≤ s.stack.length
  case neg =>
    rw [if_neg hk] at h
    simp only [Option.some.injEq, Prod.mk.injEq] at h
    obtain ⟨rfl, rfl⟩ := h
    refine ⟨fun he => ?_, fun hb => ⟨?_, fun hov => ?_⟩, fun hh2 => ?_⟩ <;> simp_all [Quiet]
  case pos =>
    rw [if_pos hk] at h
    simp only [] at h
    rw [charge_memory_eq] at h
    split_ifs at h <;> (try simp only [] at h) <;>
    first
    | exact Option.noConfusion h
    | (simp only [Option.some.injEq, Prod.mk.injEq] at h
       obtain ⟨rfl, rfl⟩ := h
       refine ⟨fun he => ?_, fun hb => ⟨?_, fun hov => ?_⟩, fun hh2 => ?_⟩ <;>
         simp_all [Quiet, sup_eq_max, natCast_max_zero] <;> omega)
    | (rw [charge_memory_eq] at h
       split_ifs at h <;> (try simp only [] at h) <;>
       first
       | exact Option.noConfusion h
       | (simp only [Option.some.injEq, Prod.mk.injEq] at h
          obtain ⟨rfl, rfl⟩ := h
          refine ⟨fun he => ?_, fun hb => ⟨?_, fun hov => ?_⟩, fun hh2 => ?_⟩ <;>
            simp_all [Quiet, sup_eq_max, natCast_max_zero] <;> omega)
       | (unfold Evm.gas_dec at h
          simp only [] at h
          split_ifs at h <;> (try simp only [] at h) <;>
          first
          | exact Option.noConfusion h
          | (simp only [Option.some.injEq, Prod.mk.injEq] at h
             obtain ⟨rfl, rfl⟩ := h
             refine ⟨fun he => ?_, fun hb => ⟨?_, fun hov => ?_⟩, fun hh2 => ?_⟩ <;>
               simp_all [Quiet, sup_eq_max, natCast_max_zero] <;> omega)
          | (apply callRest_ok s _ rc _ _ _ _ _ _ _ _ _ _ _ _ _ _ hg t e h <;>
           first | rfl | (simp <;> omega) | (simp [sup_eq_max, natCast_max_zero] <;> omega))))

theorem stepDelegatecall_ok (rc : Evm → Option (Evm × Option EvmError)) (s : Evm) :
    StepOk s (stepDelegatecall rc s) := by
  intro hg t e h
  unfold stepDelegatecall Evm.ensure_memory at h
  unfold Evm.popk at h
  by_cases hk : 6 ≤ s.stack.length
  case neg =>
    rw [if_neg hk] at h
    simp only [Option.some.injEq, Prod.mk.injEq] at h
    obtain ⟨rfl, rfl⟩ := h
    refine ⟨fun he => ?_, fun hb => ⟨?_, fun hov => ?_⟩, fun hh2 => ?_⟩ <;> simp_all [Quiet]
  case pos =>
    rw [if_pos hk] at h
    simp only [] at h
    rw [charge_memory_eq] at h
    split_ifs at h <;> (try simp only [] at h) <;>
    first
    | exact Option.noConfusion h
    | (simp only [Option.some.injEq, Prod.mk.injEq] at h
       obtain ⟨rfl, rfl⟩ := h
       refine ⟨fun he => ?_, fun hb => ⟨?_, fun hov => ?_⟩, fun hh2 => ?_⟩ <;>
         simp_all [Quiet, sup_eq_max, natCast_max_zero] <;> omega)
    | (rw [charge_memory_eq] at h
       split_ifs at h <;> (try simp only [] at h) <;>
       first
       | exact Option.noConfusion h
       | (simp only [Option.some.injEq, Prod.mk.injEq] at h
          obtain ⟨rfl, rfl⟩ := h
          refine ⟨fun he => ?_, fun hb => ⟨?_, fun hov => ?_⟩, fun hh2 => ?_⟩ <;>
            simp_all [Quiet, sup_eq_max, natCast_max_zero] <;> omega)
       | (unfold Evm.gas_dec at h
          simp only [] at h
          split_ifs at h <;> (try simp only [] at h) <;>
          first
          | exact Option.noConfusion h
          | (simp only [Option.some.injEq, Prod.mk.injEq] at h
             obtain ⟨rfl, rfl⟩ := h
             refine ⟨fun he => ?_, fun hb => ⟨?_, fun hov => ?_⟩, fun hh2 => ?_⟩ <;>
               simp_all [Quiet, sup_eq_max, natCast_max_zero] <;> omega)
          | (apply delegateRest_ok s _ rc _ _ _ _ _ _ _ _ _ _ _ _ hg t e h <;>
           first | rfl | (simp <;> omega) | (simp [sup_eq_max, natCast_max_zero] <;> omega))))

theorem dispatch_ok (keccak : List Nat → Nat) (rc : Evm → Option (Evm × Option EvmError))
    (s : Evm) (op : Nat) : StepOk s (dispatch keccak rc s op) := by
  intro hg t e h
  unfold dispatch at h
  by_cases hx0 : op = 0x00
  · rw [if_pos hx0] at h
    exact stepStop_ok s hg t e h
  · rw [if_neg hx0] at h
    by_cases hx1 : op = 0x01
    · rw [if_pos hx1] at h
      exact arithArm_ok s _ _ hg t e h
    · rw [if_neg hx1] at h
      by_cases hx2 : op = 0x02
      · rw [if_pos hx2] at h
        exact arithArm_ok s _ _ hg t e h
      · rw [if_neg hx2] at h
        by_cases hx3 : op = 0x03
        · rw [if_pos hx3] at h
          exact arithArm_ok s _ _ hg t e h
        · rw [if_neg hx3] at h
          by_cases hx4 : op = 0x04
          · rw [if_pos hx4] at h
            exact arithArm_ok s _ _ hg t e h
          · rw [if_neg hx4] at h
            by_cases hx5 : op = 0x10
            · rw [if_pos hx5] at h
              exact arithArm_ok s _ _ hg t e h
            · rw [if_neg hx5] at h
              by_cases hx6 : op = 0x11
              · rw [if_pos hx6] at h
                exact arithArm_ok s _ _ hg t e h
              · rw [if_neg hx6] at h
                by_cases hx7 : op = 0x14
                · rw [if_pos hx7] at h
                  exact arithArm_ok s _ _ hg t e h
                · rw [if_neg hx7] at h
                  by_cases hx8 : op = 0x15
                  · rw [if_pos hx8] at h
                    exact unArm_ok s _ _ hg t e h
                  · rw [if_neg hx8] at h
                    by_cases hx9 : op = 0x16
                    · rw [if_pos hx9] at h
                      exact arithArm_ok s _ _ hg t e h
                    · rw [if_neg hx9] at h
                      by_cases hx10 : op = 0x17
                      · rw [if_pos hx10] at h
                        exact arithArm_ok s _ _ hg t e h
                      · rw [if_neg hx10] at h
                        by_cases hx11 : op = 0x18
                        · rw [if_pos hx11] at h
                          exact arithArm_ok s _ _ hg t e h
                        · rw [if_neg hx11] at h
                          by_cases hx12 : op = 0x19
                          · rw [if_pos hx12] at h
                            exact unArm_ok s _ _ hg t e h
                          · rw [if_neg hx12] at h
                            by_cases hx13 : op = 0x20
                            · rw [if_pos hx13] at h
                              exact stepSha3_ok keccak s hg t e h
                            · rw [if_neg hx13] at h
                              by_cases hx14 : op = 0x30
                              · rw [if_pos hx14] at h
                                exact pushFin_ok s _ _ hg t e h
                              · rw [if_neg hx14] at h
                                by_cases hx15 : op = 0x31
                                · rw [if_pos hx15] at h
                                  exact stepBalance_ok s hg t e h
                                · rw [if_neg hx15] at h
                                  by_cases hx16 : op = 0x32
                                  · rw [if_pos hx16] at h
                                    exact pushFin_ok s _ _ hg t e h
                                  · rw [if_neg hx16] at h
                                    by_cases hx17 : op = 0x33
                                    · rw [if_pos hx17] at h
                                      exact pushFin_ok s _ _ hg t e h
                                    · rw [if_neg hx17] at h
                                      by_cases hx18 : op = 0x34
                                      · rw [if_pos hx18] at h
                                        exact pushFin_ok s _ _ hg t e h
                                      · rw [if_neg hx18] at h
                                        by_cases hx19 : op = 0x3A
                                        · rw [if_pos hx19] at h
                                          exact pushFin_ok s _ _ hg t e h
                                        · rw [if_neg hx19] at h
                                          by_cases hx20 : op = 0x3B
                                          · rw [if_pos hx20] at h
                                            exact stepExtcodesize_ok s hg t e h
                                          · rw [if_neg hx20] at h
                                            by_cases hx21 : op = 0x3C
                                            · rw [if_pos hx21] at h
                                              exact stepExtcodecopy_ok s hg t e h
                                            · rw [if_neg hx21] at h
                                              by_cases hx22 : op = 0x3D
                                              · rw [if_pos hx22] at h
                                                exact pushFin_ok s _ _ hg t e h
                                              · rw [if_neg hx22] at h
                                                by_cases hx23 : op = 0x3E
                                                · rw [if_pos hx23] at h
                                                  exact stepReturndatacopy_ok s hg t e h
                                                · rw [if_neg hx23] at h
                                                  by_cases hx24 : op = 0x3F
                                                  · rw [if_pos hx24] at h
                                                    exact stepExtcodehash_ok keccak s hg t e h
                                                  · rw [if_neg hx24] at h
                                                    by_cases hx25 : op = 0x40
                                                    · rw [if_pos hx25] at h
                                                      exact pushFin_ok s _ _ hg t e h
                                                    · rw [if_neg hx25] at h
                                                      by_cases hx26 : op = 0x41
                                                      · rw [if_pos hx26] at h
                                                        exact pushFin_ok s _ _ hg t e h
                                                      · rw [if_neg hx26] at h
                                                        by_cases hx27 : op = 0x42
                                                        · rw [if_pos hx27] at h
                                                          exact pushFin_ok s _ _ hg t e h
                                                        · rw [if_neg hx27] at h
                                                          by_cases hx28 : op = 0x43
                                                          · rw [if_pos hx28] at h
                                                            exact pushFin_ok s _ _ hg t e h
                                                          · rw [if_neg hx28] at h
                                                            by_cases hx29 : op = 0x44
                                                            · rw [if_pos hx29] at h
                                                              exact pushFin_ok s _ _ hg t e h
                                                            · rw [if_neg hx29] at h
                                                              by_cases hx30 : op = 0x45
                                                              · rw [if_pos hx30] at h
                                                                exact pushFin_ok s _ _ hg t e h
                                                              · rw [if_neg hx30] at h
                                                                by_cases hx31 : op = 0x46
                                                                · rw [if_pos hx31] at h
                                                                  exact pushFin_ok s _ _ hg t e h
                                                                · rw [if_neg hx31] at h
                                                                  by_cases hx32 : op = 0x47
                                                                  · rw [if_pos hx32] at h
                                                                    exact pushFin_ok s _ _ hg t e h
                                                                  · rw [if_neg hx32] at h
                                                                    by_cases hx33 : op = 0x48
                                                                    · rw [if_pos hx33] at h
                                                                      exact pushFin_ok s _ _ hg t e h
                                                                    · rw [if_neg hx33] at h
                                                                      by_cases hx34 : op = 0x50
                                                                      · rw [if_pos hx34] at h
                                                                        exact stepPop_ok s hg t e h
                                                                      · rw [if_neg hx34] at h
                                                                        by_cases hx35 : op = 0x51
                                                                        · rw [if_pos hx35] at h
                                                                          exact stepMload_ok s hg t e h
                                                                        · rw [if_neg hx35] at h
                                                                          by_cases hx36 : op = 0x52
                                                                          · rw [if_pos hx36] at h
                                                                            exact stepMstore_ok s hg t e h
                                                                          · rw [if_neg hx36] at h
                                                                            by_cases hx37 : op = 0x53
                                                                            · rw [if_pos hx37] at h
                                                                              exact stepMstore8_ok s hg t e h
                                                                            · rw [if_neg hx37] at h
                                                                              by_cases hx38 : op = 0x54
                                                                              · rw [if_pos hx38] at h
                                                                                exact stepSload_ok s hg t e h
                                                                              · rw [if_neg hx38] at h
                                                                                by_cases hx39 : op = 0x55
                                                                                · rw [if_pos hx39] at h
                                                                                  exact stepSstore_ok s hg t e h
                                                                                · rw [if_neg hx39] at h
                                                                                  by_cases hx40 : op = 0x56
                                                                                  · rw [if_pos hx40] at h
                                                                                    exact stepJump_ok s hg t e h
                                                                                  · rw [if_neg hx40] at h
                                                                                    by_cases hx41 : op = 0x57
                                                                                    · rw [if_pos hx41] at h
                                                                                      exact stepJumpi_ok s hg t e h
                                                                                    · rw [if_neg hx41] at h
                                                                                      by_cases hx42 : op = 0x5B
                                                                                      · rw [if_pos hx42] at h
                                                                                        exact finishStep_ok s _ hg t e h
                                                                                      · rw [if_neg hx42] at h
                                                                                        by_cases hx43 : op = 0x58
                                                                                        · rw [if_pos hx43] at h
                                                                                          exact pushFin_ok s _ _ hg t e h
                                                                                        · rw [if_neg hx43] at h
                                                                                          by_cases hx44 : op = 0x59
                                                                                          · rw [if_pos hx44] at h
                                                                                            exact pushFin_ok s _ _ hg t e h
                                                                                          · rw [if_neg hx44] at h
                                                                                            by_cases hx45 : op = 0x5A
                                                                                            · rw [if_pos hx45] at h
                                                                                              exact pushFin_ok s _ _ hg t e h
                                                                                            · rw [if_neg hx45] at h
                                                                                              by_cases hx46 : op = 0x35
                                                                                              · rw [if_pos hx46] at h
                                                                                                exact stepCalldataload_ok s hg t e h
                                                                                              · rw [if_neg hx46] at h
                                                                                                by_cases hx47 : op = 0x36
                                                                                                · rw [if_pos hx47] at h
                                                                                                  exact pushFin_ok s _ _ hg t e h
                                                                                                · rw [if_neg hx47] at h
                                                                                                  by_cases hx48 : op = 0x37
                                                                                                  · rw [if_pos hx48] at h
                                                                                                    exact stepCalldatacopy_ok s hg t e h
                                                                                                  · rw [if_neg hx48] at h
                                                                                                    by_cases hx49 : op = 0x38
                                                                                                    · rw [if_pos hx49] at h
                                                                                                      exact pushFin_ok s _ _ hg t e h
                                                                                                    · rw [if_neg hx49] at h
                                                                                                      by_cases hx50 : op = 0x39
                                                                                                      · rw [if_pos hx50] at h
                                                                                                        exact stepCodecopy_ok s hg t e h
                                                                                                      · rw [if_neg hx50] at h
                                                                                                        by_cases hx51 : op = 0x5F
                                                                                                        · rw [if_pos hx51] at h
                                                                                                          exact pushFin_ok s _ _ hg t e h
                                                                                                        · rw [if_neg hx51] at h
                                                                                                          by_cases hx52 : 0x60 ≤ op ∧ op ≤ 0x7F
                                                                                                          · rw [if_pos hx52] at h
                                                                                                            exact stepPushN_ok s _ hg t e h
                                                                                                          · rw [if_neg hx52] at h
                                                                                                            by_cases hx53 : 0x80 ≤ op ∧ op ≤ 0x8F
                                                                                                            · rw [if_pos hx53] at h
                                                                                                              exact stepDup_ok s _ hg t e h
                                                                                                            · rw [if_neg hx53] at h
                                                                                                              by_cases hx54 : 0x90 ≤ op ∧ op ≤ 0x9F
                                                                                                              · rw [if_pos hx54] at h
                                                                                                                exact stepSwap_ok s _ hg t e h
                                                                                                              · rw [if_neg hx54] at h
                                                                                                                by_cases hx55 : op = 0xF3
                                                                                                                · rw [if_pos hx55] at h
                                                                                                                  exact stepRet_ok s hg t e h
                                                                                                                · rw [if_neg hx55] at h
                                                                                                                  by_cases hx56 : op = 0xFD
                                                                                                                  · rw [if_pos hx56] at h
                                                                                                                    exact stepRevert_ok s hg t e h
                                                                                                                  · rw [if_neg hx56] at h
                                                                                                                    by_cases hx57 : 0xA0 ≤ op ∧ op ≤ 0xA4
                                                                                                                    · rw [if_pos hx57] at h
                                                                                                                      exact stepLog_ok s _ hg t e h
                                                                                                                    · rw [if_neg hx57] at h
                                                                                                                      by_cases hx58 : op = 0xF1
                                                                                                                      · rw [if_pos hx58] at h
                                                                                                                        exact stepCall_ok rc s hg t e h
                                                                                                                      · rw [if_neg hx58] at h
                                                                                                                        by_cases hx59 : op = 0xFA
                                                                                                                        · rw [if_pos hx59] at h
                                                                                                                          exact stepStaticcall_ok rc s hg t e h
                                                                                                                        · rw [if_neg hx59] at h
                                                                                                                          by_cases hx60 : op = 0xF2
                                                                                                                          · rw [if_pos hx60] at h
                                                                                                                            exact stepCallcode_ok rc s hg t e h
                                                                                                                          · rw [if_neg hx60] at h
                                                                                                                            by_cases hx61 : op = 0xF4
                                                                                                                            · rw [if_pos hx61] at h
                                                                                                                              exact stepDelegatecall_ok rc s hg t e h
                                                                                                                            · rw [if_neg hx61] at h
                                                                                                                              by_cases hx62 : op = 0xF0
                                                                                                                              · rw [if_pos hx62] at h
                                                                                                                                exact stepCreate_ok keccak rc s hg t e h
                                                                                                                              · rw [if_neg hx62] at h
                                                                                                                                by_cases hx63 : op = 0xF5
                                                                                                                                · rw [if_pos hx63] at h
                                                                                                                                  exact stepCreate2_ok keccak rc s hg t e h
                                                                                                                                · rw [if_neg hx63] at h
                                                                                                                                  simp only [Option.some.injEq, Prod.mk.injEq] at h
                                                                                                                                  obtain ⟨rfl, rfl⟩ := h
                                                                                                                                  refine ⟨fun he => ?_, fun hb => ⟨?_, fun hov => ?_⟩, fun hh2 => ?_⟩ <;> simp_all [Quiet]

theorem step_ok (keccak : List Nat → Nat) (rc : Evm → Option (Evm × Option EvmError))
    (s : Evm) : StepOk s (step keccak rc s) := by
  intro hg t e h
  unfold step at h
  rw [if_neg (by omega : ¬ s.gas ≤ 0)] at h
  by_cases hpc : s.code.length ≤ s.pc
  · rw [if_pos hpc] at h
    exact Option.noConfusion h
  · rw [if_neg hpc] at h
    exact dispatch_ok keccak rc s (s.code.getD s.pc 0) hg t e h
theorem step_gas_nonpos (keccak : List Nat → Nat) (rc : Evm → Option (Evm × Option EvmError))
    (s : Evm) (h : s.gas ≤ 0) : step keccak rc s = some (s, some EvmError.OutOfGas) := by
  unfold step
  rw [if_pos h]

theorem step_stack_le (keccak : List Nat → Nat) (rc : Evm → Option (Evm × Option EvmError))
    (s t : Evm) (e : Option EvmError) (hs : s.stack.length ≤ 1024)
    (h : step keccak rc s = some (t, e)) : t.stack.length ≤ 1024 := by
  by_cases hg : 0 < s.gas
  · exact ((step_ok keccak rc s hg t e h).2.1 hs).1
  · rw [step_gas_nonpos keccak rc s (by omega)] at h
    simp only [Option.some.injEq, Prod.mk.injEq] at h
    obtain ⟨rfl, rfl⟩ := h
    exact hs

theorem step_rd_of_not_halted (keccak : List Nat → Nat)
    (rc : Evm → Option (Evm × Option EvmError)) (s t : Evm)
    (h : step keccak rc s = some (t, none)) (ht : t.halted = none) :
    t.return_data = s.return_data := by
  by_cases hg : 0 < s.gas
  · exact (step_ok keccak rc s hg t none h).2.2 ht
  · rw [step_gas_nonpos keccak rc s (by omega)] at h
    simp only [Option.some.injEq, Prod.mk.injEq] at h
    exact absurd h.2 (by simp)

theorem runF_stack_le (keccak : List Nat → Nat) (fuel : Nat) :
    ∀ s t e, s.stack.length ≤ 1024 → runF keccak fuel s = some (t, e) →
      t.stack.length ≤ 1024 := by
  induction fuel with
  | zero => intro s t e _ h; exact Option.noConfusion h
  | succ f ih =>
    intro s t e hs h
    unfold runF at h
    split_ifs at h with hc
    · rcases hst : step keccak (runF keccak f) s with _ | ⟨s1, e1⟩
      · rw [hst] at h; exact Option.noConfusion h
      · rw [hst] at h
        rcases e1 with _ | e2
        · simp only [] at h
          exact ih s1 t e (step_stack_le keccak _ s s1 none hs hst) h
        · simp only [Option.some.injEq, Prod.mk.injEq] at h
          obtain ⟨rfl, rfl⟩ := h
          exact step_stack_le keccak _ s _ _ hs hst
    · have hts : t = s := by
        simp only [Option.some.injEq, Prod.mk.injEq] at h
        first | exact h.1.symm | exact h.symm
      rw [hts]
      exact hs

theorem runF_frozen (keccak : List Nat → Nat) (fuel : Nat) (s t : Evm)
    (h : runF keccak fuel s = some (t, none))
    (hh : ¬ (s.pc < s.code.length ∧ s.halted = none)) : t = s := by
  cases fuel with
  | zero => exact Option.noConfusion h
  | succ f =>
    unfold runF at h
    rw [if_neg hh] at h
    simp only [Option.some.injEq, Prod.mk.injEq] at h
    exact h.1.symm

theorem runF_eof (keccak : List Nat → Nat) (fuel : Nat) :
    ∀ s t, runF keccak fuel s = some (t, none) → t.halted = none →
      t.code.length ≤ t.pc ∧ t.return_data = s.return_data := by
  induction fuel with
  | zero => intro s t h; exact Option.noConfusion h
  | succ f ih =>
    intro s t h hth
    unfold runF at h
    split_ifs at h with hc
    · rcases hst : step keccak (runF keccak f) s with _ | ⟨s1, e1⟩
      · rw [hst] at h; exact Option.noConfusion h
      · rw [hst] at h
        rcases e1 with _ | e2
        · simp only [] at h
          obtain ⟨h1, h2⟩ := ih s1 t h hth
          refine ⟨h1, h2.trans ?_⟩
          by_cases hh1 : s1.halted = none
          · exact step_rd_of_not_halted keccak _ s s1 hst hh1
          · have ht1 := runF_frozen keccak f s1 t h (fun hand => hh1 hand.2)
            rw [ht1] at hth
            exact absurd hth hh1
        · simp only [Option.some.injEq, Prod.mk.injEq] at h
          exact absurd h.2 (by simp)
    · have hts : t = s := by
        simp only [Option.some.injEq, Prod.mk.injEq] at h
        first | exact h.1.symm | exact h.symm
      subst hts
      rw [not_and_or] at hc
      rcases hc with hc | hc
      · exact ⟨by omega, rfl⟩
      · exact absurd hth hc

theorem instrStartsGo_mem (code : List Nat) (fuel : Nat) :
    ∀ pc q, q ∈ instrStartsGo code fuel pc → pc ≤ q ∧ q < code.length := by
  induction fuel with
  | zero =>
    intro pc q h
    unfold instrStartsGo at h
    exact absurd h (List.not_mem_nil q)
  | succ f ih =>
    intro pc q h
    unfold instrStartsGo at h
    split_ifs at h with hlt
    · rcases List.mem_cons.mp h with rfl | h2
      · exact ⟨le_refl _, hlt⟩
      · have := ih _ q h2
        omega
    · exact absurd h (List.not_mem_nil q)

theorem instrStartsGo_cover (code : List Nat) (fuel : Nat) :
    ∀ pc p, pc ≤ p → p < code.length → code.length - pc ≤ fuel →
      p ∈ instrStartsGo code fuel pc ∨
      ∃ q ∈ instrStartsGo code fuel pc, q < p ∧ p ≤ q + pushLen (code.getD q 0) := by
  induction fuel with
  | zero =>
    intro pc p h1 h2 h3
    exact absurd h2 (by omega)
  | succ f ih =>
    intro pc p h1 h2 h3
    have hlt : pc < code.length := by omega
    unfold instrStartsGo
    rw [if_pos hlt]
    by_cases hp : p = pc
    · left
      rw [hp]
      exact List.mem_cons_self _ _
    · by_cases him : p ≤ pc + pushLen (code.getD pc 0)
      · right
        exact ⟨pc, List.mem_cons_self _ _, by omega, him⟩
      · rcases ih (pc + 1 + pushLen (code.getD pc 0)) p (by omega) h2 (by omega) with
          hm | ⟨q, hq, h4, h5⟩
        · left
          exact List.mem_cons_of_mem _ hm
        · right
          exact ⟨q, List.mem_cons_of_mem _ hq, h4, h5⟩

theorem instrStartsGo_gap (code : List Nat) (fuel : Nat) :
    ∀ pc p q, p ∈ instrStartsGo code fuel pc → q ∈ instrStartsGo code fuel pc →
      q < p → q + pushLen (code.getD q 0) < p := by
  induction fuel with
  | zero =>
    intro pc p q hp _ _
    unfold instrStartsGo at hp
    exact absurd hp (List.not_mem_nil p)
  | succ f ih =>
    intro pc p q hp hq hlt
    unfold instrStartsGo at hp hq
    split_ifs at hp hq with hc
    · rcases List.mem_cons.mp hp with rfl | hp2
      · rcases List.mem_cons.mp hq with rfl | hq2
        · omega
        · have := instrStartsGo_mem code f _ q hq2
          omega
      · rcases List.mem_cons.mp hq with rfl | hq2
        · have := instrStartsGo_mem code f _ p hp2
          omega
        · exact ih _ p q hp2 hq2 hlt
    · exact absurd hp (List.not_mem_nil p)

theorem scanGo_eq (code : List Nat) (fuel : Nat) :
    ∀ pc, scanGo code fuel pc =
      (instrStartsGo code fuel pc).filter (fun q => code.getD q 0 == 0x5B) := by
  induction fuel with
  | zero => intro pc; rfl
  | succ f ih =>
    intro pc
    unfold scanGo instrStartsGo
    by_cases hc : pc < code.length
    · rw [if_pos hc, if_pos hc]
      simp only []
      rw [List.filter_cons]
      (try simp only [])
      by_cases h5b : code.getD pc 0 = 0x5B
      · have hnp : pushLen (code.getD pc 0) = 0 := by
          unfold pushLen
          rw [if_neg (by omega)]
        have hb : (code.getD pc 0 == 0x5B) = true := by
          rw [h5b]
          rfl
        rw [if_pos h5b, hb, if_pos rfl, hnp, Nat.add_zero, ih]
      · have hb : (code.getD pc 0 == 0x5B) = false := by
          rw [beq_eq_false_iff_ne]
          exact h5b
        rw [if_neg h5b, hb, if_neg (show ¬ (false = true) by simp)]
        by_cases hpu : 0x60 ≤ code.getD pc 0 ∧ code.getD pc 0 ≤ 0x7F
        · have hpl : pushLen (code.getD pc 0) = code.getD pc 0 - 0x60 + 1 := by
            unfold pushLen
            rw [if_pos hpu]
          rw [if_pos hpu, hpl, ih]
        · have hpl : pushLen (code.getD pc 0) = 0 := by
            unfold pushLen
            rw [if_neg hpu]
          rw [if_neg hpu, hpl, Nat.add_zero, ih]
    · rw [if_neg hc, if_neg hc]
      rfl

/-- C1: the claim says a parent's world is unchanged whenever the child of a
call- or create-family instruction reverts or fails. The STATICCALL arm
(machine.rs:521) merges the child's world into the parent unconditionally,
also when the child reverted, so the claim fails on the code: here the
static child transfers 1 wei by a value-bearing CALL and then reverts, the
parent's STATICCALL pushes 0 (child reverted) yet the parent's world shows
account 0xAA's balance changed from 10 to 9. -/
theorem C1_reverted_staticcall_mutates_world :
    ∃ t, runF kZero 30 parentC1 = some (t, none) ∧
      t.stack = [0] ∧
      (t.world.map fun w => (w.getAcc 0xAA).balance) = some 9 ∧
      (parentC1.world.map fun w => (w.getAcc 0xAA).balance) = some 10 :=
  ⟨_, rfl, rfl, rfl, rfl⟩

/-- C4 (amended): an OutOfGas step preserves halted, refund, storage and
return_data and only decreases gas, but the claim's further demand that
stack, memory, pc, logs and world are also untouched fails: arms mutate
the state before charging (see the counterexample). -/
theorem C4_oog_step_quiet (keccak : List Nat → Nat)
    (rc : Evm → Option (Evm × Option EvmError)) (s t : Evm) (hg : 0 < s.gas)
    (h : step keccak rc s = some (t, some EvmError.OutOfGas)) : Quiet s t :=
  (step_ok keccak rc s hg t _ h).1 rfl

/-- C4 counterexample: ADD with 2 gas on stack [5, 7] fails with OutOfGas
(cost 3) but the popped operands are already replaced by their sum 12, so
the stack did change on an OutOfGas step. -/
theorem C4_counterexample :
    ∃ t, stepF kZero 0 exC4 = some (t, some EvmError.OutOfGas) ∧
      t.stack = [12] ∧ exC4.stack = [5, 7] :=
  ⟨_, rfl, rfl, rfl⟩

theorem C4_witness : ∃ t, stepF kZero 0 exC4 = some (t, some EvmError.OutOfGas) ∧
    Quiet exC4 t :=
  ⟨_, rfl, C4_oog_step_quiet kZero (runF kZero 0) exC4 _ (by decide) rfl⟩

/-- C6 (amended): a frame whose pc reaches code.len() with no halt
instruction and no error ends the run loop with halted still None (the
synthetic-Stop claim fails: nothing writes Halt::Stop, the driver prints
this state as EOF) and return_data unchanged. -/
theorem C6_natural_eof (keccak : List Nat → Nat) (fuel : Nat) (s t : Evm)
    (h : runF keccak fuel s = some (t, none)) (hh : t.halted = none) :
    t.code.length ≤ t.pc ∧ t.return_data = s.return_data :=
  runF_eof keccak fuel s t h hh

/-- C6 counterexample: PUSH1 1 runs off the end of code; the run ends with
pc = code.len() = 2, no error, and halted = none rather than Halt.Stop. -/
theorem C6_counterexample :
    ∃ t, runF kZero 5 evC6 = some (t, none) ∧ t.pc = 2 ∧ t.code.length = 2 ∧
      t.halted = none ∧ t.halted ≠ some Halt.Stop :=
  ⟨_, rfl, rfl, rfl, rfl, by decide⟩

theorem C6_witness : ∃ t, runF kZero 5 evC6 = some (t, none) ∧ t.halted = none ∧
    t.code.length ≤ t.pc ∧ t.return_data = evC6.return_data :=
  ⟨_, rfl, rfl, (C6_natural_eof kZero 5 evC6 _ rfl rfl).1,
    (C6_natural_eof kZero 5 evC6 _ rfl rfl).2⟩

/-- C8: the precomputed JUMPDEST set equals the set of positions p with
code[p] = 0x5B that do not lie inside the immediate bytes of a PUSHn. -/
theorem C8_jumpdest_set (code : List Nat) (p : Nat) :
    p ∈ scan_jumpdests code ↔
      p < code.length ∧ code.getD p 0 = 0x5B ∧ ¬ inPushImmediate code p := by
  unfold scan_jumpdests inPushImmediate instrStarts
  rw [scanGo_eq]
  constructor
  · intro h
    have hm := List.mem_filter.mp h
    have hb := instrStartsGo_mem code code.length 0 p hm.1
    refine ⟨hb.2, by simpa using hm.2, ?_⟩
    rintro ⟨q, hq, h1, h2⟩
    have := instrStartsGo_gap code code.length 0 p q hm.1 hq h1
    omega
  · rintro ⟨h1, h2, h3⟩
    rcases instrStartsGo_cover code code.length 0 p (Nat.zero_le p) h1 (by omega)
      with hm | ⟨q, hq, h4, h5⟩
    · exact List.mem_filter.mpr ⟨hm, by simpa using h2⟩
    · exact absurd ⟨q, hq, h4, h5⟩ h3

theorem C8_witness : 2 ∈ scan_jumpdests [0x60, 0x5B, 0x5B] :=
  (C8_jumpdest_set [0x60, 0x5B, 0x5B] 2).mpr (by decide)

/-- C9: for any starting frame within the 1024 bound, every state the run
loop produces respects the bound, and a step that fails with StackOverflow
returns the state unchanged. -/
theorem C9_stack_bound :
    (∀ (keccak : List Nat → Nat) (fuel : Nat) (s t : Evm) (e : Option EvmError),
       s.stack.length ≤ 1024 → runF keccak fuel s = some (t, e) →
       t.stack.length ≤ 1024) ∧
    (∀ (keccak : List Nat → Nat) (rc : Evm → Option (Evm × Option EvmError)) (s t : Evm),
       s.stack.length ≤ 1024 → 0 < s.gas →
       step keccak rc s = some (t, some EvmError.StackOverflow) → t = s) :=
  ⟨fun keccak fuel s t e hs h => runF_stack_le keccak fuel s t e hs h,
   fun keccak rc s t hs hg h => ((step_ok keccak rc s hg t _ h).2.1 hs).2 rfl⟩

theorem C9_witness : ∃ t, runF kZero 3 exC9 = some (t, none) ∧ t.stack.length ≤ 1024 :=
  ⟨_, rfl, C9_stack_bound.1 kZero 3 exC9 _ none (by decide) rfl⟩

theorem sload_set_stack (s : Evm) (l : List Nat) (k : Nat) :
    Evm.sload { s with stack := l } k = s.sload k := rfl

/-- C2 (amended): MLOAD, MSTORE and MSTORE8 expand memory before the
read/write but charge only the flat cost of 3: these arms never charge the
memory-expansion delta C(new_words) - C(old_words). -/
theorem C2_flat_memory_cost :
    (∀ s t, stepMload s = some (t, none) → t.gas = s.gas - 3) ∧
    (∀ s t, stepMstore s = some (t, none) → t.gas = s.gas - 3) ∧
    (∀ s t, stepMstore8 s = some (t, none) → t.gas = s.gas - 3) := by
  refine ⟨?_, ?_, ?_⟩
  · intro s t h
    unfold stepMload Evm.pop Evm.ensure_memory at h
    rcases hst : s.stack with _ | ⟨v, rest⟩ <;> rw [hst] at h <;> simp only [] at h
    · rw [Option.some.injEq, Prod.mk.injEq] at h
      exact absurd h.2 (fun hh => Option.noConfusion hh)
    · rw [pushFin_eq] at h
      split_ifs at h with h1
      · rw [Option.some.injEq, Prod.mk.injEq] at h
        exact absurd h.2 (fun hh => Option.noConfusion hh)
      · rw [finishStep_eq] at h
        split_ifs at h with h2
        · rw [Option.some.injEq, Prod.mk.injEq] at h
          exact absurd h.2 (fun hh => Option.noConfusion hh)
        · rw [Option.some.injEq, Prod.mk.injEq] at h
          obtain ⟨rfl, -⟩ := h
          show s.gas - max 3 0 = s.gas - 3
          norm_num
  · intro s t h
    unfold stepMstore Evm.popk Evm.ensure_memory at h
    split_ifs at h with hk
    · simp only [] at h
      rw [finishStep_eq] at h
      split_ifs at h with h2
      · rw [Option.some.injEq, Prod.mk.injEq] at h
        exact absurd h.2 (fun hh => Option.noConfusion hh)
      · rw [Option.some.injEq, Prod.mk.injEq] at h
        obtain ⟨rfl, -⟩ := h
        show s.gas - max 3 0 = s.gas - 3
        norm_num
    · rw [Option.some.injEq, Prod.mk.injEq] at h
      exact absurd h.2 (fun hh => Option.noConfusion hh)
  · intro s t h
    unfold stepMstore8 Evm.popk Evm.ensure_memory at h
    split_ifs at h with hk
    · simp only [] at h
      rw [finishStep_eq] at h
      split_ifs at h with h2
      · rw [Option.some.injEq, Prod.mk.injEq] at h
        exact absurd h.2 (fun hh => Option.noConfusion hh)
      · rw [Option.some.injEq, Prod.mk.injEq] at h
        obtain ⟨rfl, -⟩ := h
        show s.gas - max 3 0 = s.gas - 3
        norm_num
    · rw [Option.some.injEq, Prod.mk.injEq] at h
      exact absurd h.2 (fun hh => Option.noConfusion hh)

/-- C2 counterexample: MSTORE of a word at offset 0 expands memory from 0
to 32 bytes (one word, expansion delta C(1)-C(0) = 3 by the spec's cost
function) yet charges only the flat 3: gas goes 100 to 97, not to 94. -/
theorem C2_counterexample :
    ∃ t, stepF kZero 0 exC2 = some (t, none) ∧ t.gas = 97 ∧ exC2.gas = 100 ∧
      t.memory.length = 32 ∧ exC2.memory.length = 0 ∧
      (mem_cost (words 32) : Int) - mem_cost (words 0) = 3 :=
  ⟨_, rfl, rfl, rfl, rfl, rfl, rfl⟩

theorem C2_witness : ∃ t, stepMstore exC2 = some (t, none) ∧ t.gas = exC2.gas - 3 :=
  ⟨_, rfl, C2_flat_memory_cost.2.1 exC2 _ rfl⟩

/-- C3 (amended): call_gas computes the spec's forwarding rule (base
700 (+9000 with value), cap avail - avail/64, forward min(requested, cap)),
the CALL/CALLCODE child receives forward plus the 2300 stipend with value
and DELEGATECALL exactly forward; but STATICCALL does not use call_gas at
all: its child receives the parent's entire remaining gas. -/
theorem C3_forwarding_rule :
    (∀ (g : Int) (req : Nat) (hv : Bool),
       call_gas g req hv =
         (spec_forward g req (700 + if hv then 9000 else 0),
          700 + if hv then 9000 else 0)) ∧
    (∀ s w1 to_h fa input fwd v, (callChild s w1 to_h fa input fwd v).gas
        = ((fwd + if v ≠ 0 then 2300 else 0 : Nat) : Int)) ∧
    (∀ s w1 to_h sa input fwd v, (callcodeChild s w1 to_h sa input fwd v).gas
        = ((fwd + if v ≠ 0 then 2300 else 0 : Nat) : Int)) ∧
    (∀ s w1 to_h input fwd, (delegatecallChild s w1 to_h input fwd).gas = (fwd : Int)) ∧
    (∀ s w to_h fa input, (staticcallChild s w to_h fa input).gas = s.gas) := by
  refine ⟨?_, fun _ _ _ _ _ _ _ => rfl, fun _ _ _ _ _ _ _ => rfl,
    fun _ _ _ _ _ => rfl, fun _ _ _ _ _ => rfl⟩
  intro g req hv
  have key : ∀ (base : Nat), (if (base : Int) < g then g.toNat - base else 0)
      = (max 0 (g - base)).toNat := by
    intro base
    split_ifs with hlt <;> omega
  unfold call_gas spec_forward
  simp only []
  rw [key]

/-- C3 counterexample: at the STATICCALL of sC3 the requested gas is 0, so
the claim's forwarding rule would hand the child min(0, cap) = 0 gas and
no stipend, and the zero-gas child would fail; in the code the child frame
receives the parent's entire 982 remaining gas, the child's STOP succeeds
and the parent pushes 1. -/
theorem C3_counterexample :
    ∃ t, runF kZero 5 sC3 = some (t, none) ∧ t.stack = [1] ∧ t.gas = 942 ∧
      (staticcallChild sC3 worldC3 0xAA 0 []).gas = 982 ∧
      call_gas 982 0 false = (0, 700) :=
  ⟨_, rfl, rfl, rfl, rfl, rfl⟩

theorem C3_witness : (staticcallChild sC3 worldC3 0xAA 0 []).gas = sC3.gas :=
  C3_forwarding_rule.2.2.2.2 sC3 worldC3 0xAA 0 []

/-- C5 (amended): every binary op pops b (top) then a and pushes f(a,b);
for the bytecode 0x600560030300 the stack at SUB is [3, 5], so b = 3,
a = 5 and the run halts with Stop and 2 on top (wrapping 5-3), not
2^256 - 2. -/
theorem C5_binop_order (s : Evm) (f : Nat → Nat → Nat) (c : Int) (b a : Nat)
    (rest : List Nat) (t : Evm) (hstk : s.stack = b :: a :: rest)
    (h : arithArm s f c = some (t, none)) :
    t.stack = f a b :: rest ∧
    (∃ u, runF kZero 10 evC5 = some (u, none) ∧ u.halted = some Halt.Stop ∧
       u.stack = [2]) := by
  refine ⟨?_, ⟨_, rfl, rfl, rfl⟩⟩
  unfold arithArm Evm.binop at h
  rw [finishStep_eq] at h
  split_ifs at h with h1
  · simp only [Option.some.injEq, Prod.mk.injEq] at h
    exact absurd h.2 (by simp)
  · simp only [Option.some.injEq, Prod.mk.injEq] at h
    obtain ⟨rfl, -⟩ := h
    simp [hstk]

/-- C5 counterexample: the spec's claimed result 2^256 - 2 does not occur:
running 0x600560030300 ends with Stop and top-of-stack 2. -/
theorem C5_counterexample :
    ∃ t, runF kZero 10 evC5 = some (t, none) ∧ t.halted = some Halt.Stop ∧
      t.stack = [2] ∧ (2 : Nat) ≠ 2 ^ 256 - 2 :=
  ⟨_, rfl, rfl, rfl, by decide⟩

theorem C5_witness :
    ∃ t, arithArm { Evm.new [0x03] (cfg0 10) with stack := [3, 5] } subWrap 3
        = some (t, none) ∧ t.stack = [2] :=
  ⟨_, rfl, ((C5_binop_order { Evm.new [0x03] (cfg0 10) with stack := [3, 5] }
      subWrap 3 3 5 [] _ rfl rfl).1).trans rfl⟩

/-- C7: an SSTORE that succeeds in a non-static frame charges 20000 on a
zero-to-nonzero transition, 5000 plus a 15000 refund on nonzero-to-zero,
and 2900 otherwise. -/
theorem C7_sstore_gas (s : Evm) (k v : Nat) (rest : List Nat) (t : Evm)
    (hst : s.is_static = false) (hstk : s.stack = k :: v :: rest)
    (h : stepSstore s = some (t, none)) :
    (s.sload k = 0 ∧ v ≠ 0 → t.gas = s.gas - 20000 ∧ t.refund = s.refund) ∧
    (s.sload k ≠ 0 ∧ v = 0 → t.gas = s.gas - 5000 ∧ t.refund = s.refund + 15000) ∧
    (¬(s.sload k = 0 ∧ v ≠ 0) ∧ ¬(s.sload k ≠ 0 ∧ v = 0) →
      t.gas = s.gas - 2900 ∧ t.refund = s.refund) := by
  unfold stepSstore Evm.popk at h
  rw [if_neg (by simp [hst])] at h
  rw [if_pos (by simp [hstk])] at h
  simp only [hstk] at h
  simp only [List.take_succ_cons, List.take_zero, List.drop_succ_cons, List.drop_zero,
    List.getD_cons_zero, List.getD_cons_succ] at h
  simp only [sload_set_stack] at h
  unfold Evm.gas_dec at h
  simp only [] at h
  split_ifs at h <;> (try simp only [] at h) <;>
    simp only [Option.some.injEq, Prod.mk.injEq] at h
  all_goals (try exact absurd h.2 (fun hh => Option.noConfusion hh))
  all_goals (first | (obtain ⟨rfl, -⟩ := h) | (obtain rfl := h))
  all_goals refine ⟨fun hc => ⟨?_, ?_⟩, fun hc => ⟨?_, ?_⟩, fun hc => ⟨?_, ?_⟩⟩
  all_goals simp only [sstore_gas, sstore_refund, sup_eq_max]
  all_goals first | omega | tauto | (exfalso; tauto)

theorem C7_witness :
    ∃ t, stepSstore exC7 = some (t, none) ∧ t.gas = exC7.gas - 5000 ∧
      t.refund = exC7.refund + 15000 :=
  ⟨_, rfl, ((C7_sstore_gas exC7 1 0 [] _ rfl rfl rfl).2.1 (by decide)).1,
    ((C7_sstore_gas exC7 1 0 [] _ rfl rfl rfl).2.1 (by decide)).2⟩

/-- C10: the arithmetic, comparison and bitwise arms never report
StackUnderflow: binop and unop read missing operands as zero and still
push a result; ADD on an empty stack pushes 0. -/
theorem C10_arith_no_underflow :
    (∀ (s : Evm) (f : Nat → Nat → Nat) (c : Int) (t : Evm) (e : Option EvmError),
       arithArm s f c = some (t, e) → e ≠ some EvmError.StackUnderflow) ∧
    (∀ (s : Evm) (f : Nat → Nat) (c : Int) (t : Evm) (e : Option EvmError),
       unArm s f c = some (t, e) → e ≠ some EvmError.StackUnderflow) ∧
    (∀ (s : Evm) (f : Nat → Nat → Nat) (c : Int) (t : Evm),
       s.stack = [] → arithArm s f c = some (t, none) → t.stack = [f 0 0]) ∧
    (∃ t, stepF kZero 0 exC10 = some (t, none) ∧ t.stack = [0]) := by
  refine ⟨?_, ?_, ?_, ⟨_, rfl, rfl⟩⟩
  · intro s f c t e h
    unfold arithArm at h
    rw [finishStep_eq] at h
    split_ifs at h <;>
      simp only [Option.some.injEq, Prod.mk.injEq] at h <;>
      rw [← h.2] <;> simp
  · intro s f c t e h
    unfold unArm at h
    rw [finishStep_eq] at h
    split_ifs at h <;>
      simp only [Option.some.injEq, Prod.mk.injEq] at h <;>
      rw [← h.2] <;> simp
  · intro s f c t hstk h
    unfold arithArm Evm.binop at h
    rw [finishStep_eq] at h
    split_ifs at h with h1
    · simp only [Option.some.injEq, Prod.mk.injEq] at h
      exact absurd h.2 (by simp)
    · simp only [Option.some.injEq, Prod.mk.injEq] at h
      obtain ⟨rfl, -⟩ := h
      simp [hstk]

theorem C10_witness :
    ∃ t, arithArm exC10 addWrap 3 = some (t, none) ∧ t.stack = [0] ∧
      (none : Option EvmError) ≠ some EvmError.StackUnderflow :=
  ⟨_, rfl, (C10_arith_no_underflow.2.2.1 exC10 addWrap 3 _ rfl rfl).trans rfl,
    C10_arith_no_underflow.1 exC10 addWrap 3 _ none rfl⟩
